import Mathlib

/-!
Shallow embedding of the CHIP-8 interpreter core (src/core/processor.rs).

Machine integers are modelled as Nat with explicit wrapping (mod 256 /
mod 65536) exactly where the Rust code wraps.  Rust operations that can
abort the process (array index out of bounds, unsigned overflow or
underflow) are modelled as Option-valued functions returning none on the
aborting input.  Arrays are modelled as total functions from Nat; every
value-dependent Rust index is guarded by the same bound the Rust runtime
checks.
-/

namespace Chip8

/-- MEMORY_SIZE from processor.rs -/
def MEMORY_SIZE : Nat := 4096
/-- STACK_SIZE from processor.rs -/
def STACK_SIZE : Nat := 16
/-- KEYPAD_SIZE from processor.rs -/
def KEYPAD_SIZE : Nat := 16
/-- OPCODE_SIZE from processor.rs -/
def OPCODE_SIZE : Nat := 2
/-- NUM_REGISTERS from processor.rs -/
def NUM_REGISTERS : Nat := 16
/-- FONT_AREA_START from processor.rs -/
def FONT_AREA_START : Nat := 0x000
/-- FONT_AREA_END from processor.rs -/
def FONT_AREA_END : Nat := 0x050
/-- PROGRAM_AREA_START from processor.rs -/
def PROGRAM_AREA_START : Nat := 0x200
/-- PROGRAM_AREA_END from processor.rs -/
def PROGRAM_AREA_END : Nat := 0xfff
/-- WAITING_FOR_INPUT_BIT from processor.rs -/
def WAITING_FOR_INPUT_BIT : Nat := 0x01
/-- UPDATE_VRAM_BIT from processor.rs -/
def UPDATE_VRAM_BIT : Nat := 0x02

/-- Modelled from the spec: src/core/constants.rs is not among the sources;
the spec fixes the frame buffer as a 64 by 32 grid. -/
def CHIP8_WIDTH : Nat := 64

/-- Modelled from the spec: src/core/constants.rs is not among the sources;
the spec fixes the frame buffer as a 64 by 32 grid. -/
def CHIP8_HEIGHT : Nat := 32

/-- Modelled from the spec: src/core/fontset.rs is not among the sources; the
spec specifies a fixed built-in 80-byte bitmap font (digits 0 to F, 5 bytes
each) copied into low memory at initialization.  These are the conventional
CHIP-8 font bytes. -/
def FONTSET : List Nat :=
  [0xF0, 0x90, 0x90, 0x90, 0xF0,
   0x20, 0x60, 0x20, 0x20, 0x70,
   0xF0, 0x10, 0xF0, 0x80, 0xF0,
   0xF0, 0x10, 0xF0, 0x10, 0xF0,
   0x90, 0x90, 0xF0, 0x10, 0x10,
   0xF0, 0x80, 0xF0, 0x10, 0xF0,
   0xF0, 0x80, 0xF0, 0x90, 0xF0,
   0xF0, 0x10, 0x20, 0x40, 0x40,
   0xF0, 0x90, 0xF0, 0x90, 0xF0,
   0xF0, 0x90, 0xF0, 0x10, 0xF0,
   0xF0, 0x90, 0xF0, 0x90, 0x90,
   0xE0, 0x90, 0xE0, 0x90, 0xE0,
   0xF0, 0x80, 0x80, 0x80, 0xF0,
   0xE0, 0x90, 0x90, 0x90, 0xE0,
   0xF0, 0x80, 0xF0, 0x80, 0xF0,
   0xF0, 0x80, 0xF0, 0x80, 0x80]

/-- Pointwise update of a one-dimensional array modelled as a function. -/
def upd (f : Nat → Nat) (i x : Nat) : Nat → Nat := fun j => if j = i then x else f j

/-- Pointwise update of the two-dimensional vram array. -/
def upd2 (g : Nat → Nat → Nat) (r c x : Nat) : Nat → Nat → Nat :=
  fun r2 c2 => if r2 = r ∧ c2 = c then x else g r2 c2

/-- The Chip-8 virtual machine state: struct Processor from processor.rs. -/
structure Processor where
  memory : Nat → Nat
  stack : Nat → Nat
  sp : Nat
  keypad : Nat → Bool
  vram : Nat → Nat → Nat
  v : Nat → Nat
  i : Nat
  pc : Nat
  delay_timer : Nat
  sound_timer : Nat
  cpu_flags : Nat
  selected_v : Nat

/-- struct Output from processor.rs. -/
structure Output where
  vram_changed : Bool
  beep_request : Bool
  vram : Nat → Nat → Nat

/-- Processor::new.  The memory array is filled with 0xff and the font is
copied over addresses 0x000 to 0x04F; the stack array is filled with 0xff. -/
def new : Processor :=
  { memory := fun a => if a < FONT_AREA_END then FONTSET.getD a 0 else 0xff
    stack := fun _ => 0xff
    sp := 0
    keypad := fun _ => false
    vram := fun _ _ => 0
    v := fun _ => 0
    i := 0
    pc := PROGRAM_AREA_START
    delay_timer := 0
    sound_timer := 0
    cpu_flags := 0
    selected_v := 0 }

/-- Processor::load.  The Rust code aborts (panic) when the game buffer is
longer than PROGRAM_AREA_END - PROGRAM_AREA_START, modelled as none;
otherwise it copies game[i] to memory[0x200 + i] for each i. -/
def load (game : List Nat) (s : Processor) : Option Processor :=
  if game.length > PROGRAM_AREA_END - PROGRAM_AREA_START then none
  else some { s with
    memory := (List.range game.length).foldl
      (fun m j => upd m (PROGRAM_AREA_START + j) (game.getD j 0)) s.memory }

/-- Processor::increment_pc. -/
def increment_pc (s : Processor) : Processor := { s with pc := s.pc + 2 }

/-- Processor::jump. -/
def jump (addr : Nat) (s : Processor) : Processor := { s with pc := addr }

/-- Processor::skip: pc += 2 * OPCODE_SIZE. -/
def skip (s : Processor) : Processor := { s with pc := s.pc + 4 }

/-- Processor::read_opcode: big-endian 16-bit word at pc. -/
def read_opcode (s : Processor) : Nat :=
  (s.memory s.pc) <<< 8 ||| s.memory (s.pc + 1)

/-- 00E0 - CLS. -/
def exec_cls (s : Processor) : Processor :=
  increment_pc { s with
    vram := fun _ _ => 0
    cpu_flags := s.cpu_flags ||| UPDATE_VRAM_BIT }

/-- 00EE - RET.  self.sp -= 1 underflows (abort) when sp = 0; the read
stack[sp] aborts when the decremented sp is out of bounds. -/
def exec_ret (s : Processor) : Option Processor :=
  if s.sp = 0 then none
  else if s.sp - 1 < STACK_SIZE then
    some { s with sp := s.sp - 1, pc := s.stack (s.sp - 1) }
  else none

/-- 1nnn - JP addr. -/
def exec_jp (nnn : Nat) (s : Processor) : Processor := jump nnn s

/-- 2nnn - CALL addr.  The write stack[sp] aborts when sp is at or beyond
STACK_SIZE. -/
def exec_call (nnn : Nat) (s : Processor) : Option Processor :=
  if s.sp < STACK_SIZE then
    some (jump nnn { s with stack := upd s.stack s.sp (s.pc + OPCODE_SIZE), sp := s.sp + 1 })
  else none

/-- 3xkk - SE Vx, byte. -/
def exec_se_vx_byte (x kk : Nat) (s : Processor) : Processor :=
  if kk = s.v x then skip s else increment_pc s

/-- 4xkk - SNE Vx, byte. -/
def exec_sne_vx_byte (x kk : Nat) (s : Processor) : Processor :=
  if kk ≠ s.v x then skip s else increment_pc s

/-- 5xy0 - SE Vx, Vy. -/
def exec_se_vx_vy (x y : Nat) (s : Processor) : Processor :=
  if s.v x = s.v y then skip s else increment_pc s

/-- 6xkk - LD Vx, byte. -/
def exec_ld_vx_byte (x kk : Nat) (s : Processor) : Processor :=
  increment_pc { s with v := upd s.v x kk }

/-- 7xkk - ADD Vx, byte: the sum is taken in u16 and truncated to u8. -/
def exec_add_vx_byte (x kk : Nat) (s : Processor) : Processor :=
  increment_pc { s with v := upd s.v x ((kk + s.v x) % 256) }

/-- 8xy0 - LD Vx, Vy. -/
def exec_ld_vx_vy (x y : Nat) (s : Processor) : Processor :=
  increment_pc { s with v := upd s.v x (s.v y) }

/-- 8xy1 - OR Vx, Vy. -/
def exec_or_vx_vy (x y : Nat) (s : Processor) : Processor :=
  increment_pc { s with v := upd s.v x (s.v x ||| s.v y) }

/-- 8xy2 - AND Vx, Vy. -/
def exec_and_vx_vy (x y : Nat) (s : Processor) : Processor :=
  increment_pc { s with v := upd s.v x (s.v x &&& s.v y) }

/-- 8xy3 - XOR Vx, Vy. -/
def exec_xor_vx_vy (x y : Nat) (s : Processor) : Processor :=
  increment_pc { s with v := upd s.v x (s.v x ^^^ s.v y) }

/-- 8xy4 - ADD Vx, Vy.  VF is written first, then Vx receives the truncated
sum (the sum itself was computed before the flag write). -/
def exec_add_vx_vy (x y : Nat) (s : Processor) : Processor :=
  let sum := s.v x + s.v y
  let v1 := upd s.v 15 (if sum > 255 then 1 else 0)
  increment_pc { s with v := upd v1 x (sum % 256) }

/-- 8xy5 - SUB Vx, Vy.  VF is written first from the comparison of the old
values; the subtraction then reads the registers after that flag write
(visible when x or y is 0xF).  wrapping_sub on u8 is (a + 256 - b) mod 256. -/
def exec_sub_vx_vy (x y : Nat) (s : Processor) : Processor :=
  let v1 := upd s.v 15 (if s.v y < s.v x then 1 else 0)
  increment_pc { s with v := upd v1 x ((v1 x + 256 - v1 y) % 256) }

/-- 8xy6 - SHR Vx.  VF is written first, then Vx is shifted (reading the
registers after the flag write). -/
def exec_shr_vx_vy (x : Nat) (s : Processor) : Processor :=
  let v1 := upd s.v 15 (s.v x &&& 0x01)
  increment_pc { s with v := upd v1 x (v1 x >>> 1) }

/-- 8xy7 - SUBN Vx, Vy. -/
def exec_subn_vx_vy (x y : Nat) (s : Processor) : Processor :=
  let v1 := upd s.v 15 (if s.v x < s.v y then 1 else 0)
  increment_pc { s with v := upd v1 x ((v1 y + 256 - v1 x) % 256) }

/-- 8xyE - SHL Vx.  The u8 left shift drops the high bit (mod 256). -/
def exec_shl_vx_vy (x : Nat) (s : Processor) : Processor :=
  let v1 := upd s.v 15 ((s.v x &&& 0x80) >>> 7)
  increment_pc { s with v := upd v1 x ((v1 x <<< 1) % 256) }

/-- 9xy0 - SNE Vx, Vy. -/
def exec_sne_vx_vy (x y : Nat) (s : Processor) : Processor :=
  if s.v x ≠ s.v y then skip s else increment_pc s

/-- Annn - LD I, addr. -/
def exec_ld_i (nnn : Nat) (s : Processor) : Processor :=
  increment_pc { s with i := nnn }

/-- Bnnn - JP V0, addr. -/
def exec_jp_v0 (nnn : Nat) (s : Processor) : Processor :=
  { s with pc := nnn + s.v 0 }

/-- Cxkk - RND Vx, byte.  rnd stands for the byte drawn from the thread rng
by gen_range(0, 255); it is passed in as a parameter of the embedding. -/
def exec_rnd (x kk rnd : Nat) (s : Processor) : Processor :=
  increment_pc { s with v := upd s.v x (rnd &&& kk) }

/-- One inner iteration of the Dxyn loop: one sprite bit.  The column is
recomputed from the current v[x], the sprite byte is re-read from the current
memory and i; the read memory[i + byte] aborts when out of bounds.  VF
accumulates the collision bit and the pixel is XORed. -/
def drwBit (x yRow byteIdx bit : Nat) (s : Processor) : Option Processor :=
  if s.i + byteIdx < MEMORY_SIZE then
    let col := (s.v x + bit) % CHIP8_WIDTH
    let color := (s.memory (s.i + byteIdx) >>> (7 - bit)) &&& 1
    some { s with
      v := upd s.v 15 (s.v 15 ||| (color &&& s.vram yRow col))
      vram := upd2 s.vram yRow col (s.vram yRow col ^^^ color) }
  else none

/-- One outer iteration of the Dxyn loop: one sprite row.  The target row is
computed once per row from the current v[y]. -/
def drwByte (x y byteIdx : Nat) (s : Processor) : Option Processor :=
  (List.range 8).foldl
    (fun acc bit => acc.bind (drwBit x ((s.v y + byteIdx) % CHIP8_HEIGHT) byteIdx bit))
    (some s)

/-- Dxyn - DRW Vx, Vy, nibble. -/
def exec_drw (x y n : Nat) (s : Processor) : Option Processor :=
  ((List.range n).foldl
    (fun acc b => acc.bind (drwByte x y b))
    (some { s with v := upd s.v 15 0 })).map
      fun t => increment_pc { t with cpu_flags := t.cpu_flags ||| UPDATE_VRAM_BIT }

/-- Ex9E - SKP Vx.  The read keypad[v[x]] aborts when v[x] is out of the
16-entry keypad. -/
def exec_skp (x : Nat) (s : Processor) : Option Processor :=
  if s.v x < KEYPAD_SIZE then
    some (if s.keypad (s.v x) then skip s else increment_pc s)
  else none

/-- ExA1 - SKNP Vx. -/
def exec_sknp (x : Nat) (s : Processor) : Option Processor :=
  if s.v x < KEYPAD_SIZE then
    some (if s.keypad (s.v x) then increment_pc s else skip s)
  else none

/-- Fx07 - LD Vx, DT. -/
def exec_ld_vx_dt (x : Nat) (s : Processor) : Processor :=
  increment_pc { s with v := upd s.v x s.delay_timer }

/-- Fx0A - LD Vx, K: set the wait flag and remember the target register. -/
def exec_ld_vx_k (x : Nat) (s : Processor) : Processor :=
  increment_pc { s with cpu_flags := s.cpu_flags ||| WAITING_FOR_INPUT_BIT, selected_v := x }

/-- Fx15 - LD DT, Vx. -/
def exec_ld_dt_vx (x : Nat) (s : Processor) : Processor :=
  increment_pc { s with delay_timer := s.v x }

/-- Fx18 - LD ST, Vx. -/
def exec_ld_st_vx (x : Nat) (s : Processor) : Processor :=
  increment_pc { s with sound_timer := s.v x }

/-- Fx1E - ADD I, Vx.  self.i += v[x] is a u16 addition (abort on overflow in
a checked build); VF is then set from the comparison of the new i with
0x0F00. -/
def exec_add_i_vx (x : Nat) (s : Processor) : Option Processor :=
  if s.i + s.v x < 65536 then
    some (increment_pc { s with
      i := s.i + s.v x
      v := upd s.v 15 (if s.i + s.v x > 0x0F00 then 1 else 0) })
  else none

/-- Fx29 - LD F, Vx. -/
def exec_ld_f_vx (x : Nat) (s : Processor) : Processor :=
  increment_pc { s with i := s.v x * 5 }

/-- Fx33 - LD B, Vx.  The writes memory[i], memory[i+1], memory[i+2] abort
when out of bounds. -/
def exec_ld_b_vx (x : Nat) (s : Processor) : Option Processor :=
  if s.i + 2 < MEMORY_SIZE then
    some (increment_pc { s with
      memory := upd (upd (upd s.memory s.i (s.v x / 100))
        (s.i + 1) (s.v x % 100 / 10)) (s.i + 2) (s.v x % 10) })
  else none

/-- Fx55 - LD I, Vx: copy V0..Vx into memory starting at i.  The writes abort
when i + x is out of bounds. -/
def exec_ld_i_vx (x : Nat) (s : Processor) : Option Processor :=
  if s.i + x < MEMORY_SIZE then
    some (increment_pc { s with
      memory := (List.range (x + 1)).foldl (fun m j => upd m (s.i + j) (s.v j)) s.memory })
  else none

/-- Fx65 - LD Vx, I: read memory starting at i into V0..Vx. -/
def exec_ld_vx_i (x : Nat) (s : Processor) : Option Processor :=
  if s.i + x < MEMORY_SIZE then
    some (increment_pc { s with
      v := (List.range (x + 1)).foldl (fun f j => upd f j (s.memory (s.i + j))) s.v })
  else none

/-- First nibble of an opcode. -/
def nib1 (op : Nat) : Nat := (op &&& 0xF000) >>> 12
/-- Second nibble of an opcode (the register index x). -/
def nib2 (op : Nat) : Nat := (op &&& 0x0F00) >>> 8
/-- Third nibble of an opcode (the register index y). -/
def nib3 (op : Nat) : Nat := (op &&& 0x00F0) >>> 4
/-- Fourth nibble of an opcode (n). -/
def nib4 (op : Nat) : Nat := op &&& 0x000F

/-- The opcode dispatch table of Processor::tick, in the order of the Rust
match arms.  Arms whose execution can abort produce Option directly. -/
def dispatch (opcode : Nat) (rnd : Nat) (s : Processor) : Option Processor :=
  let x := nib2 opcode
  let y := nib3 opcode
  let n := nib4 opcode
  let kk := opcode &&& 0x00FF
  let nnn := opcode &&& 0x0FFF
  if nib1 opcode = 0x0 ∧ nib2 opcode = 0x0 ∧ nib3 opcode = 0xe ∧ nib4 opcode = 0x0 then
    some (exec_cls s)
  else if nib1 opcode = 0x0 ∧ nib2 opcode = 0x0 ∧ nib3 opcode = 0xe ∧ nib4 opcode = 0xe then
    exec_ret s
  else if nib1 opcode = 0x1 then some (exec_jp nnn s)
  else if nib1 opcode = 0x2 then exec_call nnn s
  else if nib1 opcode = 0x3 then some (exec_se_vx_byte x kk s)
  else if nib1 opcode = 0x4 then some (exec_sne_vx_byte x kk s)
  else if nib1 opcode = 0x5 then some (exec_se_vx_vy x y s)
  else if nib1 opcode = 0x6 then some (exec_ld_vx_byte x kk s)
  else if nib1 opcode = 0x7 then some (exec_add_vx_byte x kk s)
  else if nib1 opcode = 0x8 ∧ nib4 opcode = 0x0 then some (exec_ld_vx_vy x y s)
  else if nib1 opcode = 0x8 ∧ nib4 opcode = 0x1 then some (exec_or_vx_vy x y s)
  else if nib1 opcode = 0x8 ∧ nib4 opcode = 0x2 then some (exec_and_vx_vy x y s)
  else if nib1 opcode = 0x8 ∧ nib4 opcode = 0x3 then some (exec_xor_vx_vy x y s)
  else if nib1 opcode = 0x8 ∧ nib4 opcode = 0x4 then some (exec_add_vx_vy x y s)
  else if nib1 opcode = 0x8 ∧ nib4 opcode = 0x5 then some (exec_sub_vx_vy x y s)
  else if nib1 opcode = 0x8 ∧ nib4 opcode = 0x6 then some (exec_shr_vx_vy x s)
  else if nib1 opcode = 0x8 ∧ nib4 opcode = 0x7 then some (exec_subn_vx_vy x y s)
  else if nib1 opcode = 0x8 ∧ nib4 opcode = 0xe then some (exec_shl_vx_vy x s)
  else if nib1 opcode = 0x9 ∧ nib4 opcode = 0x0 then some (exec_sne_vx_vy x y s)
  else if nib1 opcode = 0xa then some (exec_ld_i nnn s)
  else if nib1 opcode = 0xb then some (exec_jp_v0 nnn s)
  else if nib1 opcode = 0xc then some (exec_rnd x kk rnd s)
  else if nib1 opcode = 0xd then exec_drw x y n s
  else if nib1 opcode = 0xe ∧ nib3 opcode = 0x9 ∧ nib4 opcode = 0xe then exec_skp x s
  else if nib1 opcode = 0xe ∧ nib3 opcode = 0xa ∧ nib4 opcode = 0x1 then exec_sknp x s
  else if nib1 opcode = 0xf ∧ nib3 opcode = 0x0 ∧ nib4 opcode = 0x7 then
    some (exec_ld_vx_dt x s)
  else if nib1 opcode = 0xf ∧ nib3 opcode = 0x0 ∧ nib4 opcode = 0xa then
    some (exec_ld_vx_k x s)
  else if nib1 opcode = 0xf ∧ nib3 opcode = 0x1 ∧ nib4 opcode = 0x5 then
    some (exec_ld_dt_vx x s)
  else if nib1 opcode = 0xf ∧ nib3 opcode = 0x1 ∧ nib4 opcode = 0x8 then
    some (exec_ld_st_vx x s)
  else if nib1 opcode = 0xf ∧ nib3 opcode = 0x1 ∧ nib4 opcode = 0xe then
    exec_add_i_vx x s
  else if nib1 opcode = 0xf ∧ nib3 opcode = 0x2 ∧ nib4 opcode = 0x9 then
    some (exec_ld_f_vx x s)
  else if nib1 opcode = 0xf ∧ nib3 opcode = 0x3 ∧ nib4 opcode = 0x3 then
    exec_ld_b_vx x s
  else if nib1 opcode = 0xf ∧ nib3 opcode = 0x5 ∧ nib4 opcode = 0x5 then
    exec_ld_i_vx x s
  else if nib1 opcode = 0xf ∧ nib3 opcode = 0x6 ∧ nib4 opcode = 0x5 then
    exec_ld_vx_i x s
  else some (increment_pc s)

/-- The step self.keypad = keypad at the top of tick. -/
def phase1 (s : Processor) (keypad : Nat → Bool) : Processor := { s with keypad := keypad }

/-- The step of tick that clears cpu_flags when UPDATE_VRAM_BIT is set. -/
def phase2 (s : Processor) : Processor :=
  if s.cpu_flags &&& UPDATE_VRAM_BIT = UPDATE_VRAM_BIT then { s with cpu_flags := 0 } else s

/-- One iteration of the wait-for-key scan: if key j is pressed, the wait
flags are cleared and the key index is stored into v[selected_v] (the write
aborts when selected_v is out of the 16-register file). -/
def waitStep (t : Processor) (j : Nat) : Option Processor :=
  if t.keypad j then
    if t.selected_v < NUM_REGISTERS then
      some { t with cpu_flags := 0, v := upd t.v t.selected_v j }
    else none
  else some t

/-- The wait-for-key branch of tick: scan all 16 keys in increasing order. -/
def waitScan (s : Processor) : Option Processor :=
  (List.range KEYPAD_SIZE).foldl (fun acc j => acc.bind fun t => waitStep t j) (some s)

/-- Timer handling of tick: each nonzero timer is decremented by one. -/
def tickTimers (s : Processor) : Processor :=
  let sA := if s.delay_timer > 0 then { s with delay_timer := s.delay_timer - 1 } else s
  if sA.sound_timer > 0 then { sA with sound_timer := sA.sound_timer - 1 } else sA

/-- The beep_request computed in tick: set exactly when the sound timer is
decremented to zero in this tick. -/
def tickBeep (s : Processor) : Bool :=
  if s.sound_timer > 0 then decide (s.sound_timer - 1 = 0) else false

/-- The Output record built at the end of tick. -/
def mkOutput (t : Processor) (beep : Bool) : Output :=
  { vram_changed := decide ((t.cpu_flags &&& UPDATE_VRAM_BIT) = UPDATE_VRAM_BIT)
    beep_request := beep
    vram := t.vram }

/-- Processor::tick.  rnd is the random byte used when a Cxkk opcode is
dispatched.  none models a process abort (panic); the Rust function only ever
returns the Ok constructor of its Result type, so the embedding needs no
error constructor. -/
def tick (s : Processor) (keypad : Nat → Bool) (rnd : Nat) : Option (Processor × Output) :=
  let s2 := phase2 (phase1 s keypad)
  if s2.cpu_flags &&& WAITING_FOR_INPUT_BIT = 1 then
    (waitScan s2).map fun t => (t, mkOutput t false)
  else
    let s4 := tickTimers s2
    if s4.pc + 1 < MEMORY_SIZE then
      (dispatch (read_opcode s4) rnd s4).map fun t => (t, mkOutput t (tickBeep s2))
    else none

/-- cpu_flags value after the clear step of tick. -/
def tickFlags (s : Processor) : Nat :=
  if s.cpu_flags &&& UPDATE_VRAM_BIT = UPDATE_VRAM_BIT then 0 else s.cpu_flags

/-- Whether a tick on state s takes the wait-for-key branch. -/
def waitingB (s : Processor) : Bool := tickFlags s &&& WAITING_FOR_INPUT_BIT == 1

/-- The opcode a non-waiting tick on state s fetches. -/
def opcodeAt (s : Processor) : Nat := read_opcode s

end Chip8

namespace Chip8

/-! ### Basic lemmas about array updates and bit flags -/

theorem upd_self (f : Nat → Nat) (i x : Nat) : upd f i x i = x := by
  simp [upd]

theorem upd_ne (f : Nat → Nat) (i x j : Nat) (h : j ≠ i) : upd f i x j = f j := by
  simp [upd, h]

theorem upd_upd_self (f : Nat → Nat) (i x y : Nat) :
    upd (upd f i x) i y = upd f i y := by
  funext j
  by_cases h : j = i <;> simp [upd, h]

theorem upd2_self (g : Nat → Nat → Nat) (r c x : Nat) : upd2 g r c x r c = x := by
  simp [upd2]

theorem upd2_ne (g : Nat → Nat → Nat) (r c x r2 c2 : Nat) (h : ¬(r2 = r ∧ c2 = c)) :
    upd2 g r c x r2 c2 = g r2 c2 := by
  simp only [upd2, if_neg h]

theorem land_two_dichotomy (a : Nat) : a &&& 2 = 0 ∨ a &&& 2 = 2 := by
  have h := Nat.and_two_pow a 1
  norm_num at h
  rw [h]
  cases a.testBit 1 <;> simp

theorem lor_two_land_two (a : Nat) : (a ||| 2) &&& 2 = 2 := by
  apply Nat.eq_of_testBit_eq
  intro k
  simp [Nat.testBit_and, Nat.testBit_or]
  tauto

theorem lor_one_land_two (a : Nat) : (a ||| 1) &&& 2 = a &&& 2 := by
  apply Nat.eq_of_testBit_eq
  intro k
  simp only [Nat.testBit_and, Nat.testBit_or]
  rcases k with _ | k
  · simp
  · have h1 : Nat.testBit 1 (k + 1) = false := by
      simp [Nat.testBit_succ]
    rw [h1]
    simp

/-! ### Option-valued fold lemmas -/

theorem foldl_bind_none (step : Nat → Processor → Option Processor) (L : List Nat) :
    L.foldl (fun acc j => acc.bind (step j)) none = none := by
  induction L with
  | nil => rfl
  | cons j L ih => simpa using ih

theorem foldl_bind_pres {α : Type} (f : Processor → α) (step : Nat → Processor → Option Processor)
    (h : ∀ j u t, step j u = some t → f t = f u) :
    ∀ (L : List Nat) (u t : Processor),
      L.foldl (fun acc j => acc.bind (step j)) (some u) = some t → f t = f u := by
  intro L
  induction L with
  | nil =>
    intro u t h2
    simp only [List.foldl_nil, Option.some.injEq] at h2
    rw [h2]
  | cons j L ih =>
    intro u t h2
    simp only [List.foldl_cons] at h2
    rw [show (some u).bind (step j) = step j u from rfl] at h2
    cases hs : step j u with
    | none =>
      rw [hs, foldl_bind_none] at h2
      cases h2
    | some w =>
      rw [hs] at h2
      rw [ih w t h2, h j u w hs]

theorem foldl_bind_keep (P : Processor → Prop) (step : Nat → Processor → Option Processor)
    (h : ∀ j u t, P u → step j u = some t → P t) :
    ∀ (L : List Nat) (u t : Processor),
      P u → L.foldl (fun acc j => acc.bind (step j)) (some u) = some t → P t := by
  intro L
  induction L with
  | nil =>
    intro u t hu h2
    simp only [List.foldl_nil, Option.some.injEq] at h2
    rw [← h2]
    exact hu
  | cons j L ih =>
    intro u t hu h2
    simp only [List.foldl_cons] at h2
    rw [show (some u).bind (step j) = step j u from rfl] at h2
    cases hs : step j u with
    | none =>
      rw [hs, foldl_bind_none] at h2
      cases h2
    | some w =>
      rw [hs] at h2
      exact ih w t (h j u w hu hs) h2

end Chip8

namespace Chip8

/-! ### Characterization of the fallible execution rules -/

theorem exec_ret_some (s t : Processor) (h : exec_ret s = some t) :
    t = { s with sp := s.sp - 1, pc := s.stack (s.sp - 1) } := by
  unfold exec_ret at h
  split_ifs at h
  simp only [Option.some.injEq] at h
  rw [h]

theorem exec_call_some (nnn : Nat) (s t : Processor) (h : exec_call nnn s = some t) :
    t = jump nnn { s with stack := upd s.stack s.sp (s.pc + OPCODE_SIZE), sp := s.sp + 1 } := by
  unfold exec_call at h
  split_ifs at h
  simp only [Option.some.injEq] at h
  rw [h]

theorem exec_skp_some (x : Nat) (s t : Processor) (h : exec_skp x s = some t) :
    t = if s.keypad (s.v x) then skip s else increment_pc s := by
  unfold exec_skp at h
  split_ifs at h ⊢ <;> simp_all

theorem exec_sknp_some (x : Nat) (s t : Processor) (h : exec_sknp x s = some t) :
    t = if s.keypad (s.v x) then increment_pc s else skip s := by
  unfold exec_sknp at h
  split_ifs at h ⊢ <;> simp_all

theorem exec_add_i_vx_some (x : Nat) (s t : Processor) (h : exec_add_i_vx x s = some t) :
    t = increment_pc { s with
      i := s.i + s.v x
      v := upd s.v 15 (if s.i + s.v x > 0x0F00 then 1 else 0) } := by
  unfold exec_add_i_vx at h
  split_ifs at h ⊢ <;> simp_all

theorem exec_ld_b_vx_some (x : Nat) (s t : Processor) (h : exec_ld_b_vx x s = some t) :
    t = increment_pc { s with
      memory := upd (upd (upd s.memory s.i (s.v x / 100))
        (s.i + 1) (s.v x % 100 / 10)) (s.i + 2) (s.v x % 10) } := by
  unfold exec_ld_b_vx at h
  split_ifs at h
  simp only [Option.some.injEq] at h
  rw [h]

theorem exec_ld_i_vx_some (x : Nat) (s t : Processor) (h : exec_ld_i_vx x s = some t) :
    t = increment_pc { s with
      memory := (List.range (x + 1)).foldl (fun m j => upd m (s.i + j) (s.v j)) s.memory } := by
  unfold exec_ld_i_vx at h
  split_ifs at h
  simp only [Option.some.injEq] at h
  rw [h]

theorem exec_ld_vx_i_some (x : Nat) (s t : Processor) (h : exec_ld_vx_i x s = some t) :
    t = increment_pc { s with
      v := (List.range (x + 1)).foldl (fun f j => upd f j (s.memory (s.i + j))) s.v } := by
  unfold exec_ld_vx_i at h
  split_ifs at h
  simp only [Option.some.injEq] at h
  rw [h]

theorem drwBit_pres (x yR b j : Nat) (u t : Processor) (h : drwBit x yR b j u = some t) :
    (t.cpu_flags, t.delay_timer, t.sound_timer) = (u.cpu_flags, u.delay_timer, u.sound_timer) := by
  unfold drwBit at h
  split_ifs at h
  simp only [Option.some.injEq] at h
  rw [← h]

theorem drwByte_pres (x y b : Nat) (u t : Processor) (h : drwByte x y b u = some t) :
    (t.cpu_flags, t.delay_timer, t.sound_timer) = (u.cpu_flags, u.delay_timer, u.sound_timer) := by
  unfold drwByte at h
  exact foldl_bind_pres (fun w => (w.cpu_flags, w.delay_timer, w.sound_timer))
    (fun bit w => drwBit x ((u.v y + b) % CHIP8_HEIGHT) b bit w)
    (fun bit w t2 hb => drwBit_pres x ((u.v y + b) % CHIP8_HEIGHT) b bit w t2 hb)
    (List.range 8) u t h

theorem exec_drw_pres (x y n : Nat) (s t : Processor) (h : exec_drw x y n s = some t) :
    t.cpu_flags = s.cpu_flags ||| UPDATE_VRAM_BIT ∧
      t.delay_timer = s.delay_timer ∧ t.sound_timer = s.sound_timer := by
  unfold exec_drw at h
  cases hf : (List.range n).foldl (fun acc b => acc.bind (drwByte x y b))
      (some { s with v := upd s.v 15 0 }) with
  | none =>
    rw [hf] at h
    cases h
  | some w =>
    rw [hf] at h
    simp only [Option.map_some', Option.some.injEq] at h
    have hp := foldl_bind_pres (fun u => (u.cpu_flags, u.delay_timer, u.sound_timer))
      (fun b u => drwByte x y b u)
      (fun b u t2 hb => drwByte_pres x y b u t2 hb)
      (List.range n) _ w hf
    simp only [Prod.mk.injEq] at hp
    rw [← h]
    simp only [increment_pc]
    exact ⟨by rw [hp.1], hp.2.1, hp.2.2⟩

end Chip8

namespace Chip8

namespace Chip8

/-- The first nibble of any opcode is below 16. -/
theorem nib1_lt (op : Nat) : nib1 op < 16 := by
  have h := Nat.and_le_right (n := op) (m := 0xF000)
  unfold nib1
  rw [Nat.shiftRight_eq_div_pow]
  omega

set_option maxHeartbeats 4000000 in
/-- Every dispatch arm except Fx15 (LD DT, Vx) and Fx18 (LD ST, Vx) leaves
both timers unchanged. -/
theorem dispatch_timers (opcode rnd : Nat) (s t : Processor)
    (h15 : ¬(nib1 opcode = 0xf ∧ nib3 opcode = 0x1 ∧ nib4 opcode = 0x5))
    (h18 : ¬(nib1 opcode = 0xf ∧ nib3 opcode = 0x1 ∧ nib4 opcode = 0x8))
    (ht : dispatch opcode rnd s = some t) :
    t.delay_timer = s.delay_timer ∧ t.sound_timer = s.sound_timer := by
  have h1 : nib1 opcode < 16 := nib1_lt opcode
  unfold dispatch at ht
  set a := nib1 opcode with ha
  interval_cases a
  all_goals simp at ht
  all_goals (try split_ifs at ht)
  all_goals first
    | omega
    | (rw [exec_ret_some s t ht]; exact ⟨rfl, rfl⟩)
    | (rw [exec_call_some _ s t ht]; exact ⟨rfl, rfl⟩)
    | (rw [exec_skp_some _ s t ht]; split <;> exact ⟨rfl, rfl⟩)
    | (rw [exec_sknp_some _ s t ht]; split <;> exact ⟨rfl, rfl⟩)
    | (rw [exec_add_i_vx_some _ s t ht]; exact ⟨rfl, rfl⟩)
    | (rw [exec_ld_b_vx_some _ s t ht]; exact ⟨rfl, rfl⟩)
    | (rw [exec_ld_i_vx_some _ s t ht]; exact ⟨rfl, rfl⟩)
    | (rw [exec_ld_vx_i_some _ s t ht]; exact ⟨rfl, rfl⟩)
    | (exact ⟨(exec_drw_pres _ _ _ s t ht).2.1, (exec_drw_pres _ _ _ s t ht).2.2⟩)
    | (rw [← ht];
       simp [exec_cls, exec_jp, exec_se_vx_byte, exec_sne_vx_byte, exec_se_vx_vy,
         exec_ld_vx_byte, exec_add_vx_byte, exec_ld_vx_vy, exec_or_vx_vy, exec_and_vx_vy,
         exec_xor_vx_vy, exec_add_vx_vy, exec_sub_vx_vy, exec_shr_vx_vy, exec_subn_vx_vy,
         exec_shl_vx_vy, exec_sne_vx_vy, exec_ld_i, exec_jp_v0, exec_rnd, exec_ld_vx_dt,
         exec_ld_vx_k, exec_ld_f_vx, increment_pc, skip, jump, apply_ite])
    | (simp only [Option.some.injEq] at ht; rw [← ht];
       simp [exec_cls, exec_jp, exec_se_vx_byte, exec_sne_vx_byte, exec_se_vx_vy,
         exec_ld_vx_byte, exec_add_vx_byte, exec_ld_vx_vy, exec_or_vx_vy, exec_and_vx_vy,
         exec_xor_vx_vy, exec_add_vx_vy, exec_sub_vx_vy, exec_shr_vx_vy, exec_subn_vx_vy,
         exec_shl_vx_vy, exec_sne_vx_vy, exec_ld_i, exec_jp_v0, exec_rnd, exec_ld_vx_dt,
         exec_ld_vx_k, exec_ld_f_vx, increment_pc, skip, jump, apply_ite])

set_option maxHeartbeats 4000000 in
/-- Starting from a state with the vram bit clear, the dispatched arm ends
with the vram bit set exactly when the arm was CLS or DRW. -/
theorem dispatch_flags (opcode rnd : Nat) (s t : Processor)
    (hs0 : s.cpu_flags &&& 2 = 0)
    (ht : dispatch opcode rnd s = some t) :
    ((t.cpu_flags &&& 2 = 2) ↔
      ((nib1 opcode = 0x0 ∧ nib2 opcode = 0x0 ∧ nib3 opcode = 0xe ∧ nib4 opcode = 0x0) ∨
        nib1 opcode = 0xd)) := by
  have h1 : nib1 opcode < 16 := nib1_lt opcode
  unfold dispatch at ht
  set a := nib1 opcode with ha
  interval_cases a
  all_goals simp at ht ⊢
  all_goals (try split_ifs at ht)
  all_goals first
    | (rw [exec_ret_some s t ht]; dsimp only; omega)
    | (rw [exec_call_some _ s t ht]; dsimp only [jump]; omega)
    | (rw [exec_skp_some _ s t ht]; split <;> (dsimp only [skip, increment_pc]; omega))
    | (rw [exec_sknp_some _ s t ht]; split <;> (dsimp only [skip, increment_pc]; omega))
    | (rw [exec_add_i_vx_some _ s t ht]; dsimp only [increment_pc]; omega)
    | (rw [exec_ld_b_vx_some _ s t ht]; dsimp only [increment_pc]; omega)
    | (rw [exec_ld_i_vx_some _ s t ht]; dsimp only [increment_pc]; omega)
    | (rw [exec_ld_vx_i_some _ s t ht]; dsimp only [increment_pc]; omega)
    | ((rw [(exec_drw_pres _ _ _ s t ht).1]; simp only [UPDATE_VRAM_BIT, lor_two_land_two]) <;> omega)
    | (((try simp only [Option.some.injEq] at ht); rw [← ht];
          simp [exec_cls, exec_jp, exec_se_vx_byte, exec_sne_vx_byte, exec_se_vx_vy,
            exec_ld_vx_byte, exec_add_vx_byte, exec_ld_vx_vy, exec_or_vx_vy, exec_and_vx_vy,
            exec_xor_vx_vy, exec_add_vx_vy, exec_sub_vx_vy, exec_shr_vx_vy, exec_subn_vx_vy,
            exec_shl_vx_vy, exec_sne_vx_vy, exec_ld_i, exec_jp_v0, exec_rnd, exec_ld_vx_dt,
            exec_ld_vx_k, exec_ld_dt_vx, exec_ld_st_vx, exec_ld_f_vx, increment_pc, skip, jump,
            apply_ite, ite_self, UPDATE_VRAM_BIT, WAITING_FOR_INPUT_BIT, lor_two_land_two,
            lor_one_land_two]) <;> omega)

end Chip8

namespace Chip8

/-! ### Projection lemmas for the tick phases -/

@[simp] theorem phase1_memory (s : Processor) (k : Nat → Bool) : (phase1 s k).memory = s.memory := rfl
@[simp] theorem phase1_pc (s : Processor) (k : Nat → Bool) : (phase1 s k).pc = s.pc := rfl
@[simp] theorem phase1_cpu_flags (s : Processor) (k : Nat → Bool) : (phase1 s k).cpu_flags = s.cpu_flags := rfl
@[simp] theorem phase1_delay (s : Processor) (k : Nat → Bool) : (phase1 s k).delay_timer = s.delay_timer := rfl
@[simp] theorem phase1_sound (s : Processor) (k : Nat → Bool) : (phase1 s k).sound_timer = s.sound_timer := rfl
@[simp] theorem phase1_v (s : Processor) (k : Nat → Bool) : (phase1 s k).v = s.v := rfl
@[simp] theorem phase1_vram (s : Processor) (k : Nat → Bool) : (phase1 s k).vram = s.vram := rfl
@[simp] theorem phase1_sp (s : Processor) (k : Nat → Bool) : (phase1 s k).sp = s.sp := rfl
@[simp] theorem phase1_stack (s : Processor) (k : Nat → Bool) : (phase1 s k).stack = s.stack := rfl
@[simp] theorem phase1_i (s : Processor) (k : Nat → Bool) : (phase1 s k).i = s.i := rfl
@[simp] theorem phase1_selected (s : Processor) (k : Nat → Bool) : (phase1 s k).selected_v = s.selected_v := rfl
@[simp] theorem phase1_keypad (s : Processor) (k : Nat → Bool) : (phase1 s k).keypad = k := rfl

@[simp] theorem phase2_memory (s : Processor) : (phase2 s).memory = s.memory := by
  unfold phase2; split <;> rfl
@[simp] theorem phase2_pc (s : Processor) : (phase2 s).pc = s.pc := by
  unfold phase2; split <;> rfl
@[simp] theorem phase2_cpu_flags (s : Processor) : (phase2 s).cpu_flags = tickFlags s := by
  unfold phase2 tickFlags; split <;> rfl
@[simp] theorem phase2_delay (s : Processor) : (phase2 s).delay_timer = s.delay_timer := by
  unfold phase2; split <;> rfl
@[simp] theorem phase2_sound (s : Processor) : (phase2 s).sound_timer = s.sound_timer := by
  unfold phase2; split <;> rfl
@[simp] theorem phase2_v (s : Processor) : (phase2 s).v = s.v := by
  unfold phase2; split <;> rfl
@[simp] theorem phase2_vram (s : Processor) : (phase2 s).vram = s.vram := by
  unfold phase2; split <;> rfl
@[simp] theorem phase2_sp (s : Processor) : (phase2 s).sp = s.sp := by
  unfold phase2; split <;> rfl
@[simp] theorem phase2_stack (s : Processor) : (phase2 s).stack = s.stack := by
  unfold phase2; split <;> rfl
@[simp] theorem phase2_i (s : Processor) : (phase2 s).i = s.i := by
  unfold phase2; split <;> rfl
@[simp] theorem phase2_selected (s : Processor) : (phase2 s).selected_v = s.selected_v := by
  unfold phase2; split <;> rfl
@[simp] theorem phase2_keypad (s : Processor) : (phase2 s).keypad = s.keypad := by
  unfold phase2; split <;> rfl

@[simp] theorem tickFlags_phase1 (s : Processor) (k : Nat → Bool) :
    tickFlags (phase1 s k) = tickFlags s := rfl

@[simp] theorem tickTimers_memory (s : Processor) : (tickTimers s).memory = s.memory := by
  unfold tickTimers; dsimp only; split_ifs <;> rfl
@[simp] theorem tickTimers_pc (s : Processor) : (tickTimers s).pc = s.pc := by
  unfold tickTimers; dsimp only; split_ifs <;> rfl
@[simp] theorem tickTimers_cpu_flags (s : Processor) : (tickTimers s).cpu_flags = s.cpu_flags := by
  unfold tickTimers; dsimp only; split_ifs <;> rfl
@[simp] theorem tickTimers_delay (s : Processor) : (tickTimers s).delay_timer = s.delay_timer - 1 := by
  unfold tickTimers; dsimp only; split_ifs <;> (try simp_all) <;> omega
@[simp] theorem tickTimers_sound (s : Processor) : (tickTimers s).sound_timer = s.sound_timer - 1 := by
  unfold tickTimers; dsimp only; split_ifs <;> (try simp_all) <;> omega
@[simp] theorem tickTimers_v (s : Processor) : (tickTimers s).v = s.v := by
  unfold tickTimers; dsimp only; split_ifs <;> rfl
@[simp] theorem tickTimers_vram (s : Processor) : (tickTimers s).vram = s.vram := by
  unfold tickTimers; dsimp only; split_ifs <;> rfl
@[simp] theorem tickTimers_sp (s : Processor) : (tickTimers s).sp = s.sp := by
  unfold tickTimers; dsimp only; split_ifs <;> rfl
@[simp] theorem tickTimers_stack (s : Processor) : (tickTimers s).stack = s.stack := by
  unfold tickTimers; dsimp only; split_ifs <;> rfl
@[simp] theorem tickTimers_i (s : Processor) : (tickTimers s).i = s.i := by
  unfold tickTimers; dsimp only; split_ifs <;> rfl
@[simp] theorem tickTimers_selected (s : Processor) : (tickTimers s).selected_v = s.selected_v := by
  unfold tickTimers; dsimp only; split_ifs <;> rfl
@[simp] theorem tickTimers_keypad (s : Processor) : (tickTimers s).keypad = s.keypad := by
  unfold tickTimers; dsimp only; split_ifs <;> rfl

/-- The opcode fetched inside tick is the opcode at the pc of the incoming
state: the keypad write, the flag clear and the timer step touch neither
memory nor pc. -/
theorem read_opcode_phases (s : Processor) (k : Nat → Bool) :
    read_opcode (tickTimers (phase2 (phase1 s k))) = opcodeAt s := by
  unfold read_opcode opcodeAt read_opcode
  rw [tickTimers_memory, tickTimers_pc, phase2_memory, phase2_pc, phase1_memory, phase1_pc]

/-- tick on a non-waiting state with a fetchable pc is timer step followed by
dispatch. -/
theorem tick_not_waiting (s : Processor) (k : Nat → Bool) (r : Nat)
    (hw : waitingB s = false) (hpc : s.pc + 1 < MEMORY_SIZE) :
    tick s k r = (dispatch (opcodeAt s) r (tickTimers (phase2 (phase1 s k)))).map
      fun t => (t, mkOutput t (tickBeep (phase2 (phase1 s k)))) := by
  unfold tick
  rw [if_neg, if_pos]
  · rw [read_opcode_phases]
  · rw [tickTimers_pc, phase2_pc, phase1_pc]
    exact hpc
  · intro hcontra
    rw [phase2_cpu_flags, tickFlags_phase1] at hcontra
    unfold waitingB WAITING_FOR_INPUT_BIT at hw
    unfold WAITING_FOR_INPUT_BIT at hcontra
    simp at hcontra hw
    omega

/-- tick on a non-waiting state whose pc cannot be fetched aborts. -/
theorem tick_not_waiting_oob (s : Processor) (k : Nat → Bool) (r : Nat)
    (hw : waitingB s = false) (hpc : ¬(s.pc + 1 < MEMORY_SIZE)) :
    tick s k r = none := by
  unfold tick
  rw [if_neg, if_neg]
  · rw [tickTimers_pc, phase2_pc, phase1_pc]
    exact hpc
  · intro hcontra
    rw [phase2_cpu_flags, tickFlags_phase1] at hcontra
    unfold waitingB WAITING_FOR_INPUT_BIT at hw
    unfold WAITING_FOR_INPUT_BIT at hcontra
    simp at hcontra hw
    omega

/-- tick on a waiting state is the keypad scan. -/
theorem tick_waiting (s : Processor) (k : Nat → Bool) (r : Nat)
    (hw : waitingB s = true) :
    tick s k r = (waitScan (phase2 (phase1 s k))).map fun t => (t, mkOutput t false) := by
  unfold tick
  rw [if_pos]
  rw [phase2_cpu_flags, tickFlags_phase1]
  unfold waitingB WAITING_FOR_INPUT_BIT at hw
  unfold WAITING_FOR_INPUT_BIT
  simp at hw ⊢
  omega

/-- One wait-scan step leaves both timers unchanged. -/
theorem waitStep_timers (j : Nat) (u t : Processor) (h : waitStep u j = some t) :
    (t.delay_timer, t.sound_timer) = (u.delay_timer, u.sound_timer) := by
  unfold waitStep at h
  split_ifs at h <;>
    (simp only [Option.some.injEq] at h; rw [← h])

/-- The whole wait-for-key scan leaves both timers unchanged. -/
theorem waitScan_timers (u t : Processor) (h : waitScan u = some t) :
    (t.delay_timer, t.sound_timer) = (u.delay_timer, u.sound_timer) := by
  unfold waitScan at h
  exact foldl_bind_pres (fun w => (w.delay_timer, w.sound_timer))
    (fun j w => waitStep w j) (fun j w t2 hb => waitStep_timers j w t2 hb)
    (List.range KEYPAD_SIZE) u t h

/-- Whether the opcode a tick on s would fetch is neither Fx15 nor Fx18 (the
two timer-loading instructions). -/
def timerFreeB (s : Processor) : Bool :=
  decide (¬(nib1 (opcodeAt s) = 0xf ∧ nib3 (opcodeAt s) = 0x1 ∧
    (nib4 (opcodeAt s) = 0x5 ∨ nib4 (opcodeAt s) = 0x8)))

end Chip8

namespace Chip8

/-- An all-zero machine state used to build concrete test states. -/
def zeroState : Processor :=
  { memory := fun _ => 0
    stack := fun _ => 0
    sp := 0
    keypad := fun _ => false
    vram := fun _ _ => 0
    v := fun _ => 0
    i := 0
    pc := 0x200
    delay_timer := 0
    sound_timer := 0
    cpu_flags := 0
    selected_v := 0 }

/-- A machine in the wait-for-key state with both timers nonzero. -/
def c1state : Processor := { zeroState with cpu_flags := 1, delay_timer := 5, sound_timer := 3 }

/-- C1 counterexample: on a wait-for-key tick with no key pressed, the delay
timer is NOT decremented (it stays 5 where the claim demands 4). -/
theorem C1_counterexample :
    ((tick c1state (fun _ => false) 0).map fun p => p.1.delay_timer) ≠ some 4 := by
  decide

/-- C1 (amended): the timers are decremented by exactly 1 while nonzero only
in ticks in which the machine is not in the wait-for-key state (where an
instruction other than Fx15/Fx18 executes); in every wait-for-key tick,
whether or not a key is pressed, both timers are left unchanged. -/
theorem C1_timers_amended (s : Processor) (k : Nat → Bool) (r : Nat)
    (hop : waitingB s = false → timerFreeB s = true) :
    ((tick s k r).map fun p => (p.1.delay_timer, p.1.sound_timer)) =
      ((tick s k r).map fun _ =>
        if waitingB s then (s.delay_timer, s.sound_timer)
        else (s.delay_timer - 1, s.sound_timer - 1)) := by
  cases hw : waitingB s with
  | true =>
    rw [tick_waiting s k r hw]
    cases hs : waitScan (phase2 (phase1 s k)) with
    | none => simp
    | some t =>
      have hts := waitScan_timers _ t hs
      simp only [Prod.mk.injEq, phase2_delay, phase2_sound, phase1_delay, phase1_sound] at hts
      simp only [Option.map_some', Option.some.injEq, hw, if_true]
      exact Prod.ext hts.1 hts.2
  | false =>
    by_cases hpc : s.pc + 1 < MEMORY_SIZE
    · rw [tick_not_waiting s k r hw hpc]
      cases hd : dispatch (opcodeAt s) r (tickTimers (phase2 (phase1 s k))) with
      | none => simp
      | some t =>
        have hfree : ¬(nib1 (opcodeAt s) = 0xf ∧ nib3 (opcodeAt s) = 0x1 ∧
            (nib4 (opcodeAt s) = 0x5 ∨ nib4 (opcodeAt s) = 0x8)) := by
          have h2 := hop hw
          unfold timerFreeB at h2
          exact of_decide_eq_true h2
        have h15 : ¬(nib1 (opcodeAt s) = 0xf ∧ nib3 (opcodeAt s) = 0x1 ∧
            nib4 (opcodeAt s) = 0x5) :=
          fun hcc => hfree ⟨hcc.1, hcc.2.1, Or.inl hcc.2.2⟩
        have h18 : ¬(nib1 (opcodeAt s) = 0xf ∧ nib3 (opcodeAt s) = 0x1 ∧
            nib4 (opcodeAt s) = 0x8) :=
          fun hcc => hfree ⟨hcc.1, hcc.2.1, Or.inr hcc.2.2⟩
        have hdt := dispatch_timers _ r _ t h15 h18 hd
        simp only [tickTimers_delay, tickTimers_sound, phase2_delay, phase2_sound,
          phase1_delay, phase1_sound] at hdt
        simp only [Option.map_some', Option.some.injEq, hw, if_false, Bool.false_eq_true]
        exact Prod.ext hdt.1 hdt.2
    · rw [tick_not_waiting_oob s k r hw hpc]
      rfl

/-- C1 witness: a concrete wait-for-key tick, no key pressed, timers (5, 3)
stay (5, 3). -/
theorem C1_witness :
    waitingB c1state = true ∧
      ((tick c1state (fun _ => false) 0).map fun p => (p.1.delay_timer, p.1.sound_timer)) =
        some (5, 3) := by
  refine ⟨by decide, ?_⟩
  have h := C1_timers_amended c1state (fun _ => false) 0 (by decide)
  rw [h]
  decide

end Chip8

namespace Chip8

/-- The pure (abort-free) body of one wait-scan iteration. -/
def wstep (t : Processor) (j : Nat) : Processor :=
  if t.keypad j then { t with cpu_flags := 0, v := upd t.v t.selected_v j } else t

@[simp] theorem wstep_keypad (t : Processor) (j : Nat) : (wstep t j).keypad = t.keypad := by
  unfold wstep; split <;> rfl
@[simp] theorem wstep_selected (t : Processor) (j : Nat) : (wstep t j).selected_v = t.selected_v := by
  unfold wstep; split <;> rfl
@[simp] theorem wstep_memory (t : Processor) (j : Nat) : (wstep t j).memory = t.memory := by
  unfold wstep; split <;> rfl
@[simp] theorem wstep_stack (t : Processor) (j : Nat) : (wstep t j).stack = t.stack := by
  unfold wstep; split <;> rfl
@[simp] theorem wstep_sp (t : Processor) (j : Nat) : (wstep t j).sp = t.sp := by
  unfold wstep; split <;> rfl
@[simp] theorem wstep_vram (t : Processor) (j : Nat) : (wstep t j).vram = t.vram := by
  unfold wstep; split <;> rfl
@[simp] theorem wstep_i (t : Processor) (j : Nat) : (wstep t j).i = t.i := by
  unfold wstep; split <;> rfl
@[simp] theorem wstep_pc (t : Processor) (j : Nat) : (wstep t j).pc = t.pc := by
  unfold wstep; split <;> rfl
@[simp] theorem wstep_delay (t : Processor) (j : Nat) : (wstep t j).delay_timer = t.delay_timer := by
  unfold wstep; split <;> rfl
@[simp] theorem wstep_sound (t : Processor) (j : Nat) : (wstep t j).sound_timer = t.sound_timer := by
  unfold wstep; split <;> rfl

/-- When the target register index is in range, one wait-scan step is the
pure step. -/
theorem waitStep_eq (t : Processor) (j : Nat) (h : t.selected_v < NUM_REGISTERS) :
    waitStep t j = some (wstep t j) := by
  unfold waitStep wstep
  split_ifs <;> rfl

/-- With an in-range target register, the wait scan is the pure fold. -/
theorem waitScan_pure (L : List Nat) :
    ∀ t : Processor, t.selected_v < NUM_REGISTERS →
      (L.foldl (fun acc j => acc.bind fun u => waitStep u j) (some t)) =
        some (L.foldl wstep t) := by
  induction L with
  | nil => intro t h; rfl
  | cons j L ih =>
    intro t h
    simp only [List.foldl_cons]
    rw [show (some t).bind (fun u => waitStep u j) = waitStep t j from rfl,
      waitStep_eq t j h]
    exact ih (wstep t j) (by rw [wstep_selected]; exact h)

/-- The last pressed key seen while folding over L, starting from default d:
the value the Rust scan loop leaves in the target register. -/
def lastKeyAux (k : Nat → Bool) (d : Nat) (L : List Nat) : Nat :=
  L.foldl (fun a j => if k j then j else a) d

/-- The key index stored by a full 16-key scan of the keypad snapshot k. -/
def lastKey (k : Nat → Bool) : Nat := lastKeyAux k 0 (List.range KEYPAD_SIZE)

theorem lastKeyAux_not_any (k : Nat → Bool) :
    ∀ (L : List Nat) (d : Nat), L.any k = false → lastKeyAux k d L = d := by
  intro L
  induction L with
  | nil => intro d _; rfl
  | cons j L ih =>
    intro d h
    simp only [List.any_cons, Bool.or_eq_false_iff] at h
    unfold lastKeyAux
    simp only [List.foldl_cons, h.1, Bool.false_eq_true, if_false]
    exact ih d h.2

theorem lastKeyAux_any_congr (k : Nat → Bool) :
    ∀ (L : List Nat) (d d2 : Nat), L.any k = true → lastKeyAux k d L = lastKeyAux k d2 L := by
  intro L
  induction L with
  | nil => intro d d2 h; cases h
  | cons j L ih =>
    intro d d2 h
    unfold lastKeyAux
    simp only [List.foldl_cons]
    cases hj : k j with
    | true => simp [hj]
    | false =>
      simp only [List.any_cons, hj, Bool.false_or] at h
      simp only [hj, Bool.false_eq_true, if_false]
      exact ih d d2 h

/-- The scan result over the whole fold: cpu_flags is cleared exactly when a
key in L is pressed. -/
theorem wstep_fold_flags (L : List Nat) :
    ∀ t : Processor, (L.foldl wstep t).cpu_flags =
      if L.any t.keypad then 0 else t.cpu_flags := by
  induction L with
  | nil => intro t; simp
  | cons j L ih =>
    intro t
    simp only [List.foldl_cons, List.any_cons]
    rw [ih (wstep t j), wstep_keypad]
    by_cases hj : t.keypad j = true
    · simp only [hj, Bool.true_or, if_true]
      split
      · rfl
      · unfold wstep; rw [if_pos hj]
    · simp only [Bool.not_eq_true] at hj
      simp only [hj, Bool.false_or]
      have hid : wstep t j = t := by unfold wstep; rw [if_neg (by simp [hj])]
      rw [hid]

/-- The scan result over the whole fold: the register file is the original
with the last pressed key index stored, when some key in L is pressed. -/
theorem wstep_fold_v (L : List Nat) :
    ∀ t : Processor, (L.foldl wstep t).v =
      if L.any t.keypad then upd t.v t.selected_v (lastKeyAux t.keypad 0 L) else t.v := by
  induction L with
  | nil => intro t; simp
  | cons j L ih =>
    intro t
    simp only [List.foldl_cons, List.any_cons]
    rw [ih (wstep t j), wstep_keypad, wstep_selected]
    by_cases hj : t.keypad j = true
    · have hws : wstep t j = { t with cpu_flags := 0, v := upd t.v t.selected_v j } := by
        unfold wstep; rw [if_pos hj]
      simp only [hj, Bool.true_or, if_true]
      by_cases hany : L.any t.keypad = true
      · simp only [hany, if_true, hws]
        have hlk : lastKeyAux t.keypad 0 (j :: L) = lastKeyAux t.keypad 0 L := by
          unfold lastKeyAux
          simp only [List.foldl_cons, hj, if_true]
          exact lastKeyAux_any_congr t.keypad L j 0 hany
        rw [hlk]
        exact upd_upd_self t.v t.selected_v j (lastKeyAux t.keypad 0 L)
      · simp only [Bool.not_eq_true] at hany
        simp only [hany, Bool.false_eq_true, if_false, hws]
        have hlk : lastKeyAux t.keypad 0 (j :: L) = j := by
          unfold lastKeyAux
          simp only [List.foldl_cons, hj, if_true]
          exact lastKeyAux_not_any t.keypad L j hany
        rw [hlk]
    · simp only [Bool.not_eq_true] at hj
      have hws : wstep t j = t := by unfold wstep; rw [if_neg (by simp [hj])]
      have hlk : lastKeyAux t.keypad 0 (j :: L) = lastKeyAux t.keypad 0 L := by
        unfold lastKeyAux
        simp only [List.foldl_cons, hj, Bool.false_eq_true, if_false]
      simp only [hj, Bool.false_or, hws, hlk]

theorem lastKeyAux_pressed (k : Nat → Bool) :
    ∀ (n d : Nat), (List.range n).any k = true → k (lastKeyAux k d (List.range n)) = true := by
  intro n
  induction n with
  | zero => intro d h; cases h
  | succ n ih =>
    intro d h
    rw [List.range_succ] at h ⊢
    unfold lastKeyAux
    rw [List.foldl_append]
    simp only [List.foldl_cons, List.foldl_nil]
    cases hn : k n with
    | true => simp [hn]
    | false =>
      simp only [List.any_append, List.any_cons, List.any_nil, hn] at h
      simp only [Bool.or_false, Bool.false_eq_true] at h
      simp only [hn, Bool.false_eq_true, if_false]
      exact ih d h

theorem lastKeyAux_greatest (k : Nat → Bool) :
    ∀ (n d j : Nat), j < n → k j = true → j ≤ lastKeyAux k d (List.range n) := by
  intro n
  induction n with
  | zero => intro d j hj _; omega
  | succ n ih =>
    intro d j hj hk
    rw [List.range_succ]
    unfold lastKeyAux
    rw [List.foldl_append]
    simp only [List.foldl_cons, List.foldl_nil]
    cases hn : k n with
    | true => simp only [hn, if_true]; omega
    | false =>
      simp only [hn, Bool.false_eq_true, if_false]
      have hjn : j ≠ n := by
        intro hcc
        rw [hcc] at hk
        rw [hk] at hn
        cases hn
      exact ih d j (by omega) hk

end Chip8

namespace Chip8

/-- The keypad snapshot with keys 2 and 5 pressed. -/
def c2keys : Nat → Bool := fun j => j == 2 || j == 5

/-- C2 counterexample: waiting with target register 0 and keys 2 and 5 both
pressed, the claim demands the FIRST pressed key (2) to be stored; the code
stores 5. -/
theorem C2_counterexample :
    ((tick c1state c2keys 0).map fun p => p.1.v c1state.selected_v) ≠ some 2 := by
  decide

/-- C2 (amended): on a wait-for-key tick with at least one pressed key (and
an in-range target register), the scan stores the LAST pressed key in
increasing scan order - the greatest pressed key index - into the target
register, and clears the cpu flags, so that normal fetch/execute resumes on
the following tick. -/
theorem C2_wait_key_amended (s : Processor) (k : Nat → Bool) (r : Nat)
    (hw : waitingB s = true) (hsel : s.selected_v < NUM_REGISTERS)
    (hp : (List.range KEYPAD_SIZE).any k = true) :
    ((tick s k r).map fun p => (p.1.cpu_flags, p.1.v s.selected_v)) = some (0, lastKey k) ∧
      k (lastKey k) = true ∧
      ((List.range KEYPAD_SIZE).all fun j => !(k j) || decide (j ≤ lastKey k)) = true := by
  refine ⟨?_, lastKeyAux_pressed k KEYPAD_SIZE 0 hp, ?_⟩
  · rw [tick_waiting s k r hw]
    unfold waitScan
    have hsel2 : (phase2 (phase1 s k)).selected_v < NUM_REGISTERS := by
      rw [phase2_selected, phase1_selected]
      exact hsel
    rw [waitScan_pure (List.range KEYPAD_SIZE) _ hsel2]
    simp only [Option.map_some', Option.some.injEq]
    have hF := wstep_fold_flags (List.range KEYPAD_SIZE) (phase2 (phase1 s k))
    have hV := wstep_fold_v (List.range KEYPAD_SIZE) (phase2 (phase1 s k))
    rw [phase2_keypad, phase1_keypad] at hF hV
    rw [phase2_selected, phase1_selected] at hV
    rw [hF, hV]
    simp only [hp, if_true]
    rw [upd_self]
    unfold lastKey
    exact Prod.ext rfl rfl
  · simp only [List.all_eq_true, List.mem_range]
    intro j hj
    by_cases hkj : k j = true
    · have := lastKeyAux_greatest k KEYPAD_SIZE 0 j hj hkj
      unfold lastKey
      simp [this]
    · simp only [Bool.not_eq_true] at hkj
      simp [hkj]

/-- C2 witness: waiting with keys 2 and 5 pressed stores 5 and clears the
wait flag. -/
theorem C2_witness :
    ((tick c1state c2keys 0).map fun p => (p.1.cpu_flags, p.1.v c1state.selected_v)) =
      some (0, 5) := by
  have h := C2_wait_key_amended c1state c2keys 0 (by decide) (by decide) (by decide)
  rw [h.1]
  decide

end Chip8

namespace Chip8

attribute [ext] Processor
attribute [ext] Output

/-- C3: evaluation of Processor::new.  pc, sp, i, the timers, the registers
and the frame buffer are zeroed and the font is copied to 0x000..0x04F, but
every memory byte outside the font area is 0xFF (not 0) and every stack
entry is 0xFF (not 0): the initialization fills both arrays with 0xff under
comments saying Clear memory and Clear stack. -/
theorem C3_init_values :
    new.pc = 0x200 ∧ new.sp = 0 ∧ new.i = 0 ∧ new.delay_timer = 0 ∧ new.sound_timer = 0 ∧
      new.cpu_flags = 0 ∧ new.v 0 = 0 ∧ new.v 15 = 0 ∧
      new.vram 0 0 = 0 ∧ new.vram 31 63 = 0 ∧
      ((List.range 0x50).all fun a => new.memory a == FONTSET.getD a 0) = true ∧
      new.memory 0x50 = 0xFF ∧ new.memory 0x200 = 0xFF ∧ new.memory 0xFFF = 0xFF ∧
      new.stack 0 = 0xFF ∧ new.stack 15 = 0xFF := by
  decide

/-- An opcode with first nibble 0 that is neither 00E0 nor 00EE falls through
every arm of the dispatch table to the default no-op that advances pc. -/
theorem dispatch_default (op rnd : Nat) (u : Processor)
    (h0 : nib1 op = 0)
    (hne0 : ¬(nib2 op = 0 ∧ nib3 op = 0xe ∧ nib4 op = 0))
    (hnee : ¬(nib2 op = 0 ∧ nib3 op = 0xe ∧ nib4 op = 0xe)) :
    dispatch op rnd u = some (increment_pc u) := by
  unfold dispatch
  rw [h0]
  simp only [show (0:Nat) = 0 from rfl, true_and]
  rw [if_neg hne0, if_neg hnee]
  norm_num

end Chip8

namespace Chip8

/-- After the clear step of tick, the vram bit of the flags is always 0. -/
theorem tickFlags_land_two (s : Processor) : tickFlags s &&& 2 = 0 := by
  unfold tickFlags UPDATE_VRAM_BIT
  split_ifs with h
  · rfl
  · rcases land_two_dichotomy s.cpu_flags with h2 | h2
    · exact h2
    · exact absurd h2 h

/-- The beep request computed ahead of dispatch is set exactly when the sound
timer is 1 on entry to the tick. -/
theorem tickBeep_phases (s : Processor) (k : Nat → Bool) :
    tickBeep (phase2 (phase1 s k)) = decide (s.sound_timer = 1) := by
  unfold tickBeep
  rw [phase2_sound, phase1_sound]
  rcases Nat.eq_zero_or_pos s.sound_timer with h | h
  · rw [if_neg (by omega)]
    rw [h]
    rfl
  · rw [if_pos h]
    rw [decide_eq_decide]
    omega

/-- The machine state whose program memory holds the single opcode 0x0123. -/
def c4state : Processor :=
  { zeroState with memory := fun a => if a = 0x200 then 0x01 else if a = 0x201 then 0x23 else 0 }

/-- C4 counterexample: executing opcode 0x0123 does not set pc to 0x123 (it
advances pc to 0x202 instead). -/
theorem C4_counterexample :
    ((tick c4state (fun _ => false) 0).map fun p => p.1.pc) ≠ some 0x123 := by
  decide

/-- C4 (amended): an opcode 0nnn other than 00E0 and 00EE is dispatched by
the catch-all arm: it is a no-op that advances pc by 2, with no other change
to the machine state beyond the usual tick effects (keypad latch, vram-flag
clearing, timer decrement). -/
theorem C4_legacy_amended (s : Processor) (k : Nat → Bool) (r : Nat)
    (hw : waitingB s = false) (hpc : s.pc + 1 < MEMORY_SIZE)
    (h0 : nib1 (opcodeAt s) = 0)
    (hne0 : ¬(nib2 (opcodeAt s) = 0 ∧ nib3 (opcodeAt s) = 0xe ∧ nib4 (opcodeAt s) = 0))
    (hnee : ¬(nib2 (opcodeAt s) = 0 ∧ nib3 (opcodeAt s) = 0xe ∧ nib4 (opcodeAt s) = 0xe)) :
    tick s k r = some
      ({ s with
          keypad := k
          cpu_flags := tickFlags s
          delay_timer := s.delay_timer - 1
          sound_timer := s.sound_timer - 1
          pc := s.pc + 2 },
       { vram_changed := false, beep_request := decide (s.sound_timer = 1), vram := s.vram }) := by
  rw [tick_not_waiting s k r hw hpc, dispatch_default _ r _ h0 hne0 hnee]
  simp only [Option.map_some']
  refine congrArg some (Prod.ext ?_ ?_)
  · refine Processor.ext ?_ ?_ ?_ ?_ ?_ ?_ ?_ ?_ ?_ ?_ ?_ ?_ <;>
      simp [increment_pc]
  · refine Output.ext ?_ ?_ ?_
    · show decide _ = false
      rw [increment_pc]
      simp only [tickTimers_cpu_flags, phase2_cpu_flags, tickFlags_phase1]
      rw [show UPDATE_VRAM_BIT = 2 from rfl, tickFlags_land_two]
      rfl
    · exact tickBeep_phases s k
    · show (increment_pc (tickTimers (phase2 (phase1 s k)))).vram = s.vram
      rw [increment_pc]
      simp

/-- C4 witness: opcode 0x0123 executed on the concrete state advances pc to
0x202 and changes nothing else. -/
theorem C4_witness :
    tick c4state (fun _ => false) 0 = some
      ({ c4state with
          keypad := fun _ => false
          cpu_flags := tickFlags c4state
          delay_timer := c4state.delay_timer - 1
          sound_timer := c4state.sound_timer - 1
          pc := c4state.pc + 2 },
       { vram_changed := false, beep_request := decide (c4state.sound_timer = 1),
         vram := c4state.vram }) :=
  C4_legacy_amended c4state (fun _ => false) 0 (by decide) (by decide) (by decide)
    (by decide) (by decide)

end Chip8

namespace Chip8

/-- A machine state with V0 = V1 = 5. -/
def c5state : Processor := { zeroState with v := fun j => if j = 0 ∨ j = 1 then 5 else 0 }

/-- C5 counterexample: with V0 = V1 = 5, the claim says 8xy5 sets VF = 1
(Vx ≥ Vy); the code compares strictly and sets VF = 0. -/
theorem C5_counterexample : (exec_sub_vx_vy 0 1 c5state).v 15 ≠ 1 := by
  decide

/-- C5 (amended): for register indices x, y other than 0xF, 8xy5 sets VF to 1
exactly when Vx is STRICTLY greater than Vy (and 0 otherwise, including the
equal case) and stores (Vx - Vy) mod 256 into Vx; symmetrically 8xy7 sets VF
to 1 exactly when Vy > Vx and stores (Vy - Vx) mod 256; both advance pc by 2.
(When x or y is 0xF the flag write happens before the subtraction and the
operand reads see the flag value, so the subtraction law does not apply.) -/
theorem C5_sub_subn_amended (s : Processor) (x y : Nat)
    (hx : x < 16) (hy : y < 16) (hx15 : x ≠ 15) (hy15 : y ≠ 15)
    (hvx : s.v x < 256) (hvy : s.v y < 256) :
    (exec_sub_vx_vy x y s).v 15 = (if s.v y < s.v x then 1 else 0) ∧
      ((exec_sub_vx_vy x y s).v x : Int) = ((s.v x : Int) - (s.v y : Int)) % 256 ∧
      (exec_sub_vx_vy x y s).pc = s.pc + 2 ∧
      (exec_subn_vx_vy x y s).v 15 = (if s.v x < s.v y then 1 else 0) ∧
      ((exec_subn_vx_vy x y s).v x : Int) = ((s.v y : Int) - (s.v x : Int)) % 256 ∧
      (exec_subn_vx_vy x y s).pc = s.pc + 2 := by
  unfold exec_sub_vx_vy exec_subn_vx_vy increment_pc
  refine ⟨?_, ?_, rfl, ?_, ?_, rfl⟩
  · show upd (upd s.v 15 _) x _ 15 = _
    rw [upd_ne _ x _ 15 (fun hcc => hx15 hcc.symm), upd_self]
  · show ((upd (upd s.v 15 _) x _ x : Nat) : Int) = _
    rw [upd_self, upd_ne _ 15 _ x hx15, upd_ne _ 15 _ y hy15]
    omega
  · show upd (upd s.v 15 _) x _ 15 = _
    rw [upd_ne _ x _ 15 (fun hcc => hx15 hcc.symm), upd_self]
  · show ((upd (upd s.v 15 _) x _ x : Nat) : Int) = _
    rw [upd_self, upd_ne _ 15 _ x hx15, upd_ne _ 15 _ y hy15]
    omega

/-- C5 witness: V0 = 5, V1 = 5 gives VF = 0 from 8xy5 and 8xy7, and the
wrapped differences are 0. -/
theorem C5_witness :
    (exec_sub_vx_vy 0 1 c5state).v 15 = (if c5state.v 1 < c5state.v 0 then 1 else 0) ∧
      ((exec_sub_vx_vy 0 1 c5state).v 0 : Int) =
        ((c5state.v 0 : Int) - (c5state.v 1 : Int)) % 256 :=
  ⟨(C5_sub_subn_amended c5state 0 1 (by decide) (by decide) (by decide) (by decide)
      (by decide) (by decide)).1,
   (C5_sub_subn_amended c5state 0 1 (by decide) (by decide) (by decide) (by decide)
      (by decide) (by decide)).2.1⟩

/-- A machine state with VF = 7 and V0 = 2. -/
def c9state : Processor := { zeroState with v := fun j => if j = 15 then 7 else 2 }

/-- C9 counterexample: the claim says Fx1E changes no register, but the code
also writes VF: with VF = 7 before, VF is 0 after (new I = 2 is not above
0x0F00). -/
theorem C9_counterexample :
    ((exec_add_i_vx 0 c9state).map fun t => t.v 15) ≠ some 7 := by
  decide

/-- C9 (amended): Fx1E sets I = I + Vx (16-bit addition, no masking, given no
u16 overflow), advances pc by 2, and ALSO overwrites VF with 1 when the new I
exceeds 0x0F00 and 0 otherwise; memory, stack, sp, timers, keypad, the frame
buffer and the registers other than VF are unchanged. -/
theorem C9_add_i_amended (s : Processor) (x : Nat) (hov : s.i + s.v x < 65536) :
    exec_add_i_vx x s = some (increment_pc { s with
      i := s.i + s.v x
      v := upd s.v 15 (if s.i + s.v x > 0x0F00 then 1 else 0) }) := by
  unfold exec_add_i_vx
  rw [if_pos hov]

/-- C9 witness: at the concrete state, I becomes 2, VF becomes 0, pc
advances, and V0 stays 2. -/
theorem C9_witness :
    exec_add_i_vx 0 c9state = some (increment_pc { c9state with
      i := c9state.i + c9state.v 0
      v := upd c9state.v 15 (if c9state.i + c9state.v 0 > 0x0F00 then 1 else 0) }) :=
  C9_add_i_amended c9state 0 (by decide)

end Chip8

namespace Chip8

/-- A fresh-style machine whose program is the single opcode 00EE with an
empty stack. -/
def c6ret : Processor :=
  { zeroState with memory := fun a => if a = 0x200 then 0x00 else if a = 0x201 then 0xEE else 0 }

/-- A machine whose program is CALL 0x300 with the stack pointer already at
capacity. -/
def c6call : Processor :=
  { zeroState with sp := 16, memory := fun a => if a = 0x200 then 0x23 else 0 }

set_option maxRecDepth 100000 in
/-- C6: RET on an empty stack and CALL on a full stack both abort the process
(u16 underflow respectively out-of-bounds stack write, modelled none); tick
never returns through its typed error channel - the 00EE and 2nnn arms index
the arrays unguarded, so no Err value is ever produced. -/
theorem C6_stack_faults_abort :
    (tick c6ret (fun _ => false) 0).isNone = true ∧
      (tick c6call (fun _ => false) 0).isNone = true := by
  decide

/-- Pointwise description of the program-copy loop of load. -/
theorem load_fold_char (g : List Nat) (m : Nat → Nat) :
    ∀ (n : Nat) (a : Nat),
      ((List.range n).foldl (fun m2 j => upd m2 (PROGRAM_AREA_START + j) (g.getD j 0)) m) a =
        if PROGRAM_AREA_START ≤ a ∧ a < PROGRAM_AREA_START + n
          then g.getD (a - PROGRAM_AREA_START) 0 else m a := by
  intro n
  induction n with
  | zero =>
    intro a
    rw [if_neg (by omega)]
    rfl
  | succ n ih =>
    intro a
    rw [List.range_succ, List.foldl_append, List.foldl_cons, List.foldl_nil]
    by_cases ha : a = PROGRAM_AREA_START + n
    · rw [ha, upd_self, if_pos (by unfold PROGRAM_AREA_START; omega)]
      have hn : PROGRAM_AREA_START + n - PROGRAM_AREA_START = n := by omega
      rw [hn]
    · rw [upd_ne _ _ _ _ ha, ih a]
      by_cases hin : PROGRAM_AREA_START ≤ a ∧ a < PROGRAM_AREA_START + n
      · rw [if_pos hin, if_pos (by omega)]
      · rw [if_neg hin, if_neg (by omega)]

/-- C7: load fails (the Rust code aborts with the game-too-big report) if and
only if the buffer is longer than 0xFFF - 0x200 = 0xDFF bytes; nothing is
written before that check, and on success the bytes land at 0x200 onward with
every other field of the machine unchanged. -/
theorem C7_load (g : List Nat) (s : Processor) :
    ((load g s).isNone = decide (g.length > 0xDFF)) ∧
      (∀ t, load g s = some t →
        (∀ a, t.memory a =
            if PROGRAM_AREA_START ≤ a ∧ a < PROGRAM_AREA_START + g.length
              then g.getD (a - PROGRAM_AREA_START) 0 else s.memory a) ∧
          t.pc = s.pc ∧ t.sp = s.sp ∧ t.i = s.i ∧ t.v = s.v ∧ t.stack = s.stack ∧
          t.vram = s.vram ∧ t.delay_timer = s.delay_timer ∧ t.sound_timer = s.sound_timer ∧
          t.cpu_flags = s.cpu_flags ∧ t.keypad = s.keypad ∧ t.selected_v = s.selected_v) := by
  unfold load
  split_ifs with h
  · refine ⟨?_, ?_⟩
    · simp only [Option.isNone_none]
      unfold PROGRAM_AREA_END PROGRAM_AREA_START at h
      symm
      rw [decide_eq_true_eq]
      omega
    · intro t hcc
      cases hcc
  · refine ⟨?_, ?_⟩
    · simp only [Option.isNone_some]
      unfold PROGRAM_AREA_END PROGRAM_AREA_START at h
      symm
      rw [decide_eq_false_iff_not]
      omega
    · intro t hcc
      simp only [Option.some.injEq] at hcc
      rw [← hcc]
      refine ⟨fun a => load_fold_char g s.memory g.length a,
        rfl, rfl, rfl, rfl, rfl, rfl, rfl, rfl, rfl, rfl, rfl⟩

/-- A tiny concrete game image. -/
def c7game : List Nat := [0xA1, 0xB2, 0xC3]

/-- C7 witness: loading a 3-byte game succeeds, copies the bytes to
0x200..0x202, and leaves the byte before the program area and the byte after
the copied image untouched. -/
theorem C7_witness :
    (load c7game zeroState).isNone = false ∧
      ((load c7game zeroState).map fun t =>
        (t.memory 0x1FF, t.memory 0x200, t.memory 0x202, t.memory 0x203, t.pc)) =
        some (0, 0xA1, 0xC3, 0, 0x200) := by
  have h := C7_load c7game zeroState
  refine ⟨by rw [h.1]; decide, ?_⟩
  cases hl : load c7game zeroState with
  | none =>
    rw [hl] at h
    simp [c7game] at h
  | some t =>
    have hm := h.2 t hl
    simp only [Option.map_some', Option.some.injEq]
    rw [hm.1 0x1FF, hm.1 0x200, hm.1 0x202, hm.1 0x203, hm.2.1]
    decide

end Chip8

namespace Chip8

/-- One wait-scan step keeps the vram bit clear. -/
theorem waitStep_flag2 (j : Nat) (u t : Processor) (hu : u.cpu_flags &&& 2 = 0)
    (h : waitStep u j = some t) : t.cpu_flags &&& 2 = 0 := by
  unfold waitStep at h
  split_ifs at h <;> simp only [Option.some.injEq] at h <;> rw [← h]
  · exact Nat.zero_and 2
  · exact hu

/-- The wait-for-key scan keeps the vram bit clear. -/
theorem waitScan_flag2 (u t : Processor) (hu : u.cpu_flags &&& 2 = 0)
    (h : waitScan u = some t) : t.cpu_flags &&& 2 = 0 := by
  unfold waitScan at h
  exact foldl_bind_keep (fun w => w.cpu_flags &&& 2 = 0) (fun j w => waitStep w j)
    (fun j w t2 hw hb => waitStep_flag2 j w t2 hw hb) (List.range KEYPAD_SIZE) u t hu h

/-- Whether the opcode a tick on s would fetch is 00E0 (CLS) or Dxyn (DRW):
the two frame-buffer-writing instructions. -/
def drawOpB (s : Processor) : Bool :=
  decide ((nib1 (opcodeAt s) = 0x0 ∧ nib2 (opcodeAt s) = 0x0 ∧
      nib3 (opcodeAt s) = 0xe ∧ nib4 (opcodeAt s) = 0x0) ∨
    nib1 (opcodeAt s) = 0xd)

/-- C10: the vram_changed flag of the Output of a tick is true exactly when
that tick executed 00E0 or Dxyn: it is false on wait-for-key ticks and on the
tick after a draw, because the flag is cleared at the top of every tick. -/
theorem C10_vram_changed (s : Processor) (k : Nat → Bool) (r : Nat) :
    ((tick s k r).map fun p => p.2.vram_changed) =
      ((tick s k r).map fun _ => !waitingB s && drawOpB s) := by
  cases hw : waitingB s with
  | true =>
    rw [tick_waiting s k r hw]
    cases hs : waitScan (phase2 (phase1 s k)) with
    | none => simp
    | some t =>
      have hflags : t.cpu_flags &&& 2 = 0 := by
        refine waitScan_flag2 _ t ?_ hs
        rw [phase2_cpu_flags, tickFlags_phase1]
        exact tickFlags_land_two s
      simp only [Option.map_some', Option.some.injEq]
      unfold mkOutput UPDATE_VRAM_BIT
      simp [hflags, hw]
  | false =>
    by_cases hpc : s.pc + 1 < MEMORY_SIZE
    · rw [tick_not_waiting s k r hw hpc]
      cases hd : dispatch (opcodeAt s) r (tickTimers (phase2 (phase1 s k))) with
      | none => simp
      | some t =>
        have hs0 : (tickTimers (phase2 (phase1 s k))).cpu_flags &&& 2 = 0 := by
          rw [tickTimers_cpu_flags, phase2_cpu_flags, tickFlags_phase1]
          exact tickFlags_land_two s
        have h2 := dispatch_flags (opcodeAt s) r _ t hs0 hd
        simp only [Option.map_some', Option.some.injEq]
        unfold mkOutput UPDATE_VRAM_BIT drawOpB
        simp only [hw, Bool.not_false, Bool.true_and]
        exact decide_eq_decide.mpr h2
    · rw [tick_not_waiting_oob s k r hw hpc]
      rfl

end Chip8

namespace Chip8

/-! ### Generic lemmas about the bit-OR accumulation and pixel-update folds -/

theorem or01 (a b : Nat) (ha : a ≤ 1) (hb : b ≤ 1) :
    a ||| b = if a = 1 ∨ b = 1 then 1 else 0 := by
  interval_cases a <;> interval_cases b <;> decide

theorem lorfold_le_one (f : Nat → Nat) :
    ∀ (L : List Nat) (a : Nat), a ≤ 1 → (∀ j ∈ L, f j ≤ 1) →
      L.foldl (fun a2 j => a2 ||| f j) a ≤ 1 := by
  intro L
  induction L with
  | nil => intro a ha _; exact ha
  | cons j L ih =>
    intro a ha hf
    simp only [List.foldl_cons]
    refine ih (a ||| f j) ?_ (fun j2 hj2 => hf j2 (List.mem_cons_of_mem j hj2))
    rw [or01 a (f j) ha (hf j (List.mem_cons_self j L))]
    split <;> omega

theorem lorfold_all_zero (f : Nat → Nat) :
    ∀ (L : List Nat) (a : Nat), (∀ j ∈ L, f j = 0) →
      L.foldl (fun a2 j => a2 ||| f j) a = a := by
  intro L
  induction L with
  | nil => intro a _; rfl
  | cons j L ih =>
    intro a hf
    simp only [List.foldl_cons]
    rw [hf j (List.mem_cons_self j L), Nat.or_zero]
    exact ih a (fun j2 hj2 => hf j2 (List.mem_cons_of_mem j hj2))

theorem lorfold_keep_one (f : Nat → Nat) :
    ∀ (L : List Nat), (∀ j ∈ L, f j ≤ 1) →
      L.foldl (fun a2 j => a2 ||| f j) 1 = 1 := by
  intro L
  induction L with
  | nil => intro _; rfl
  | cons j L ih =>
    intro hf
    simp only [List.foldl_cons]
    rw [or01 1 (f j) (by omega) (hf j (List.mem_cons_self j L))]
    rw [if_pos (Or.inl rfl)]
    exact ih (fun j2 hj2 => hf j2 (List.mem_cons_of_mem j hj2))

theorem lorfold_hit (f : Nat → Nat) :
    ∀ (L : List Nat) (a : Nat), a ≤ 1 → (∀ j ∈ L, f j ≤ 1) →
      (∃ j ∈ L, f j = 1) → L.foldl (fun a2 j => a2 ||| f j) a = 1 := by
  intro L
  induction L with
  | nil =>
    intro a _ _ hex
    obtain ⟨j, hj, _⟩ := hex
    cases hj
  | cons j L ih =>
    intro a ha hf hex
    simp only [List.foldl_cons]
    obtain ⟨j0, hj0, hfj0⟩ := hex
    rcases List.mem_cons.mp hj0 with hj0h | hj0t
    · rw [hj0h] at hfj0
      rw [hfj0, or01 a 1 ha (by omega), if_pos (Or.inr rfl)]
      exact lorfold_keep_one f L (fun j2 hj2 => hf j2 (List.mem_cons_of_mem j hj2))
    · refine ih (a ||| f j) ?_ (fun j2 hj2 => hf j2 (List.mem_cons_of_mem j hj2)) ⟨j0, hj0t, hfj0⟩
      rw [or01 a (f j) ha (hf j (List.mem_cons_self j L))]
      split <;> omega

theorem updfold_miss (yR : Nat) (f1 f2 : Nat → Nat) :
    ∀ (J : List Nat) (g : Nat → Nat → Nat) (r c : Nat),
      (∀ j ∈ J, ¬(r = yR ∧ c = f1 j)) →
      (J.foldl (fun g2 j => upd2 g2 yR (f1 j) (f2 j)) g) r c = g r c := by
  intro J
  induction J with
  | nil => intro g r c _; rfl
  | cons j J ih =>
    intro g r c hm
    simp only [List.foldl_cons]
    rw [ih _ r c (fun j2 hj2 => hm j2 (List.mem_cons_of_mem j hj2))]
    exact upd2_ne g yR (f1 j) (f2 j) r c (hm j (List.mem_cons_self j J))

theorem updfold_hit (yR : Nat) (f1 f2 : Nat → Nat) :
    ∀ (J : List Nat) (g : Nat → Nat → Nat) (c j0 : Nat),
      j0 ∈ J → c = f1 j0 →
      (∀ a ∈ J, ∀ b2 ∈ J, f1 a = f1 b2 → a = b2) →
      (J.foldl (fun g2 j => upd2 g2 yR (f1 j) (f2 j)) g) yR c = f2 j0 := by
  intro J
  induction J with
  | nil =>
    intro g c j0 hj0 _ _
    cases hj0
  | cons j J ih =>
    intro g c j0 hj0 hc hinj
    simp only [List.foldl_cons]
    rcases List.mem_cons.mp hj0 with hj0h | hj0t
    · by_cases hJ : j0 ∈ J
      · exact ih _ c j0 hJ hc
          (fun a ha b2 hb2 => hinj a (List.mem_cons_of_mem j ha) b2 (List.mem_cons_of_mem j hb2))
      · rw [updfold_miss yR f1 f2 J _ yR c ?_]
        · rw [hc, hj0h, upd2_self]
        · intro j2 hj2 hcc
          have : f1 j2 = f1 j0 := by rw [← hcc.2, hc]
          have heq := hinj j2 (List.mem_cons_of_mem j hj2) j0 hj0 this
          rw [hj0h] at hJ
          rw [← hj0h, ← heq] at hJ
          exact hJ hj2
    · exact ih _ c j0 hj0t hc
        (fun a ha b2 hb2 => hinj a (List.mem_cons_of_mem j ha) b2 (List.mem_cons_of_mem j hb2))

end Chip8

namespace Chip8

/-- The target row of sprite row b, as the Dxyn loop computes it. -/
def rowOf (u : Processor) (y b : Nat) : Nat := (u.v y + b) % CHIP8_HEIGHT

/-- The target column of sprite bit j, as the Dxyn loop computes it. -/
def colOf (u : Processor) (x j : Nat) : Nat := (u.v x + j) % CHIP8_WIDTH

/-- The sprite pixel (0 or 1) at row b, bit j, as the Dxyn loop reads it. -/
def colorOf (u : Processor) (b j : Nat) : Nat := (u.memory (u.i + b) >>> (7 - j)) &&& 1

theorem colorOf_le_one (u : Processor) (b j : Nat) : colorOf u b j ≤ 1 :=
  Nat.and_le_right

end Chip8

namespace Chip8

/-- Characterization of the inner (bit) loop of Dxyn over a duplicate-free
bit list J: when the columns colF, sprite pixels colorF and pre-row pixel
values vrF describe the row-start state u, the loop succeeds and performs
the accumulated collision OR and the pixel XOR writes. -/
theorem drwBits_char (x b yR : Nat) (hx15 : x ≠ 15)
    (colF colorF vrF : Nat → Nat) :
    ∀ (J : List Nat) (u : Processor),
      u.i + b < MEMORY_SIZE → J.Nodup →
      (∀ a ∈ J, ∀ c ∈ J, colF a = colF c → a = c) →
      (∀ j ∈ J, colOf u x j = colF j) →
      (∀ j ∈ J, colorOf u b j = colorF j) →
      (∀ j ∈ J, u.vram yR (colF j) = vrF j) →
      (J.foldl (fun acc j => acc.bind (drwBit x yR b j)) (some u)) = some
        { u with
          v := upd u.v 15 (J.foldl (fun a j => a ||| (colorF j &&& vrF j)) (u.v 15))
          vram := J.foldl (fun g j => upd2 g yR (colF j) (vrF j ^^^ colorF j)) u.vram } := by
  intro J
  induction J with
  | nil =>
    intro u hb _ _ _ _ _
    simp only [List.foldl_nil]
    refine congrArg some (Processor.ext rfl rfl rfl rfl rfl ?_ rfl rfl rfl rfl rfl rfl)
    funext z
    by_cases hz : z = 15 <;> simp [upd, hz]
  | cons j J ih =>
    intro u hb hnd hinj hcolF hcolorF hvrF
    have hjJ : j ∉ J := (List.nodup_cons.mp hnd).1
    have hndJ : J.Nodup := (List.nodup_cons.mp hnd).2
    have hjh := List.mem_cons_self j J
    have hd : drwBit x yR b j u = some
        { u with
          v := upd u.v 15 (u.v 15 ||| (colorF j &&& vrF j))
          vram := upd2 u.vram yR (colF j) (vrF j ^^^ colorF j) } := by
      unfold drwBit
      rw [if_pos hb]
      dsimp only
      rw [show (u.v x + j) % CHIP8_WIDTH = colF j from hcolF j hjh]
      rw [show (u.memory (u.i + b) >>> (7 - j)) &&& 1 = colorF j from hcolorF j hjh]
      rw [show u.vram yR (colF j) = vrF j from hvrF j hjh]
    simp only [List.foldl_cons]
    rw [show (some u).bind (drwBit x yR b j) = drwBit x yR b j u from rfl, hd]
    refine (ih _ (by exact hb) hndJ
      (fun a ha c hc => hinj a (List.mem_cons_of_mem j ha) c (List.mem_cons_of_mem j hc))
      ?_ ?_ ?_).trans ?_
    · intro j2 hj2
      show colOf _ x j2 = colF j2
      unfold colOf
      dsimp only
      rw [upd_ne u.v 15 _ x hx15]
      exact hcolF j2 (List.mem_cons_of_mem j hj2)
    · intro j2 hj2
      show colorOf _ b j2 = colorF j2
      exact hcolorF j2 (List.mem_cons_of_mem j hj2)
    · intro j2 hj2
      show upd2 u.vram yR (colF j) (vrF j ^^^ colorF j) yR (colF j2) = vrF j2
      rw [upd2_ne]
      · exact hvrF j2 (List.mem_cons_of_mem j hj2)
      · intro hcc
        have heq := hinj j2 (List.mem_cons_of_mem j hj2) j hjh hcc.2
        rw [heq] at hj2
        exact hjJ hj2
    · refine congrArg some (Processor.ext rfl rfl rfl rfl rfl ?_ rfl rfl rfl rfl rfl rfl)
      show upd (upd u.v 15 (u.v 15 ||| (colorF j &&& vrF j))) 15 _ = _
      rw [upd_upd_self]
      rfl

end Chip8

namespace Chip8

/-- Characterization of the outer (row) loop of Dxyn over a duplicate-free
row list B with injective target rows: each row XORs the 8 sprite pixels into
its own row and ORs the collision bits into VF, all reads being against the
state at draw start. -/
theorem drwRows_char (x y : Nat) (hx15 : x ≠ 15) (hy15 : y ≠ 15)
    (rowF colF : Nat → Nat) (colorF vrF : Nat → Nat → Nat) :
    ∀ (B : List Nat) (u : Processor),
      (∀ b ∈ B, u.i + b < MEMORY_SIZE) → B.Nodup →
      (∀ a ∈ B, ∀ c ∈ B, rowF a = rowF c → a = c) →
      (∀ a ∈ List.range 8, ∀ c ∈ List.range 8, colF a = colF c → a = c) →
      (∀ b ∈ B, rowOf u y b = rowF b) →
      (∀ j ∈ List.range 8, colOf u x j = colF j) →
      (∀ b ∈ B, ∀ j ∈ List.range 8, colorOf u b j = colorF b j) →
      (∀ b ∈ B, ∀ j ∈ List.range 8, u.vram (rowF b) (colF j) = vrF b j) →
      (B.foldl (fun acc b => acc.bind (drwByte x y b)) (some u)) = some
        { u with
          v := upd u.v 15 (B.foldl (fun a b =>
            (List.range 8).foldl (fun a2 j => a2 ||| (colorF b j &&& vrF b j)) a) (u.v 15))
          vram := B.foldl (fun g b =>
            (List.range 8).foldl (fun g2 j =>
              upd2 g2 (rowF b) (colF j) (vrF b j ^^^ colorF b j)) g) u.vram } := by
  intro B
  induction B with
  | nil =>
    intro u _ _ _ _ _ _ _ _
    simp only [List.foldl_nil]
    refine congrArg some (Processor.ext rfl rfl rfl rfl rfl ?_ rfl rfl rfl rfl rfl rfl)
    funext z
    by_cases hz : z = 15 <;> simp [upd, hz]
  | cons b B ih =>
    intro u hbnd hnd hrinj hcinj hrowF hcolF hcolorF hvrF
    have hbB : b ∉ B := (List.nodup_cons.mp hnd).1
    have hndB : B.Nodup := (List.nodup_cons.mp hnd).2
    have hbh := List.mem_cons_self b B
    simp only [List.foldl_cons]
    rw [show (some u).bind (drwByte x y b) = drwByte x y b u from rfl]
    have hbyte : drwByte x y b u = some
        { u with
          v := upd u.v 15
            ((List.range 8).foldl (fun a2 j => a2 ||| (colorF b j &&& vrF b j)) (u.v 15))
          vram := (List.range 8).foldl
            (fun g2 j => upd2 g2 (rowF b) (colF j) (vrF b j ^^^ colorF b j)) u.vram } := by
      unfold drwByte
      rw [show (u.v y + b) % CHIP8_HEIGHT = rowF b from hrowF b hbh]
      exact drwBits_char x b (rowF b) hx15 colF (colorF b) (vrF b) (List.range 8) u
        (hbnd b hbh) (List.nodup_range 8) hcinj hcolF (hcolorF b hbh) (hvrF b hbh)
    rw [hbyte]
    refine (ih _ (fun b2 hb2 => by exact hbnd b2 (List.mem_cons_of_mem b hb2)) hndB
      (fun a ha c hc => hrinj a (List.mem_cons_of_mem b ha) c (List.mem_cons_of_mem b hc))
      hcinj ?_ ?_ ?_ ?_).trans ?_
    · intro b2 hb2
      show rowOf _ y b2 = rowF b2
      unfold rowOf
      dsimp only
      rw [upd_ne u.v 15 _ y hy15]
      exact hrowF b2 (List.mem_cons_of_mem b hb2)
    · intro j hj
      show colOf _ x j = colF j
      unfold colOf
      dsimp only
      rw [upd_ne u.v 15 _ x hx15]
      exact hcolF j hj
    · intro b2 hb2 j hj
      show colorOf _ b2 j = colorF b2 j
      exact hcolorF b2 (List.mem_cons_of_mem b hb2) j hj
    · intro b2 hb2 j hj
      show ((List.range 8).foldl
        (fun g2 j2 => upd2 g2 (rowF b) (colF j2) (vrF b j2 ^^^ colorF b j2)) u.vram)
          (rowF b2) (colF j) = vrF b2 j
      rw [updfold_miss (rowF b) colF (fun j2 => vrF b j2 ^^^ colorF b j2) (List.range 8)
        u.vram (rowF b2) (colF j) ?_]
      · exact hvrF b2 (List.mem_cons_of_mem b hb2) j hj
      · intro j2 _ hcc
        have heq := hrinj b2 (List.mem_cons_of_mem b hb2) b hbh hcc.1
        rw [heq] at hb2
        exact hbB hb2
    · refine congrArg some (Processor.ext rfl rfl rfl rfl rfl ?_ rfl rfl rfl rfl rfl rfl)
      show upd (upd u.v 15 _) 15 _ = _
      rw [upd_upd_self]
      rfl

end Chip8

namespace Chip8

/-- Full characterization of Dxyn for target registers other than VF, against
caller-supplied injective row/column maps and sprite/pre-draw pixel values:
VF accumulates the collision bits and every sprite pixel is XORed into its
wrapped target cell, the vram flag is set and pc advances by 2. -/
theorem exec_drw_char (x y n : Nat) (s : Processor) (hx15 : x ≠ 15) (hy15 : y ≠ 15)
    (rowF colF : Nat → Nat) (colorF vrF : Nat → Nat → Nat)
    (hrowinj : ∀ a ∈ List.range n, ∀ c ∈ List.range n, rowF a = rowF c → a = c)
    (hcolinj : ∀ a ∈ List.range 8, ∀ c ∈ List.range 8, colF a = colF c → a = c)
    (hrowF : ∀ b ∈ List.range n, rowOf s y b = rowF b)
    (hcolF : ∀ j ∈ List.range 8, colOf s x j = colF j)
    (hcolorF : ∀ b ∈ List.range n, ∀ j ∈ List.range 8, colorOf s b j = colorF b j)
    (hvrF : ∀ b ∈ List.range n, ∀ j ∈ List.range 8, s.vram (rowF b) (colF j) = vrF b j)
    (hmem : s.i + n ≤ MEMORY_SIZE) :
    exec_drw x y n s = some (increment_pc { s with
      v := upd s.v 15 ((List.range n).foldl (fun a b =>
        (List.range 8).foldl (fun a2 j => a2 ||| (colorF b j &&& vrF b j)) a) 0)
      vram := (List.range n).foldl (fun g b =>
        (List.range 8).foldl (fun g2 j =>
          upd2 g2 (rowF b) (colF j) (vrF b j ^^^ colorF b j)) g) s.vram
      cpu_flags := s.cpu_flags ||| UPDATE_VRAM_BIT }) := by
  unfold exec_drw
  rw [drwRows_char x y hx15 hy15 rowF colF colorF vrF
    (List.range n) { s with v := upd s.v 15 0 } ?_ (List.nodup_range n) hrowinj hcolinj
    ?_ ?_ ?_ ?_]
  · simp only [Option.map_some']
    refine congrArg some (Processor.ext rfl rfl rfl rfl rfl ?_ rfl rfl rfl rfl rfl rfl)
    show upd (upd s.v 15 0) 15 _ = _
    rw [upd_upd_self]
    rfl
  · intro b hb
    have := List.mem_range.mp hb
    show s.i + b < MEMORY_SIZE
    omega
  · intro b hb
    show rowOf _ y b = rowF b
    refine Eq.trans ?_ (hrowF b hb)
    unfold rowOf
    dsimp only
    rw [upd_ne s.v 15 0 y hy15]
  · intro j hj
    show colOf _ x j = colF j
    refine Eq.trans ?_ (hcolF j hj)
    unfold colOf
    dsimp only
    rw [upd_ne s.v 15 0 x hx15]
  · intro b hb j hj
    exact hcolorF b hb j hj
  · intro b hb j hj
    exact hvrF b hb j hj

/-- Reading an untouched cell of the nested row/column pixel-write fold. -/
theorem drawfold_pt_miss (rowF colF : Nat → Nat) (valF : Nat → Nat → Nat) :
    ∀ (B : List Nat) (g : Nat → Nat → Nat) (r c : Nat),
      (∀ b ∈ B, ∀ j ∈ List.range 8, ¬(r = rowF b ∧ c = colF j)) →
      (B.foldl (fun g2 b => (List.range 8).foldl
        (fun g3 j => upd2 g3 (rowF b) (colF j) (valF b j)) g2) g) r c = g r c := by
  intro B
  induction B with
  | nil => intro g r c _; rfl
  | cons b B ih =>
    intro g r c hm
    simp only [List.foldl_cons]
    rw [ih _ r c (fun b2 hb2 => hm b2 (List.mem_cons_of_mem b hb2))]
    exact updfold_miss (rowF b) colF (valF b) (List.range 8) g r c
      (hm b (List.mem_cons_self b B))

/-- Reading a written cell of the nested row/column pixel-write fold. -/
theorem drawfold_pt_hit (rowF colF : Nat → Nat) (valF : Nat → Nat → Nat) :
    ∀ (B : List Nat) (g : Nat → Nat → Nat) (c b0 j0 : Nat),
      b0 ∈ B → B.Nodup →
      (∀ a ∈ B, ∀ e ∈ B, rowF a = rowF e → a = e) →
      (∀ a ∈ List.range 8, ∀ e ∈ List.range 8, colF a = colF e → a = e) →
      j0 ∈ List.range 8 → c = colF j0 →
      (B.foldl (fun g2 b => (List.range 8).foldl
        (fun g3 j => upd2 g3 (rowF b) (colF j) (valF b j)) g2) g) (rowF b0) c = valF b0 j0 := by
  intro B
  induction B with
  | nil =>
    intro g c b0 j0 hb0 _ _ _ _ _
    cases hb0
  | cons b B ih =>
    intro g c b0 j0 hb0 hnd hrinj hcinj hj0 hc
    have hbB : b ∉ B := (List.nodup_cons.mp hnd).1
    have hndB : B.Nodup := (List.nodup_cons.mp hnd).2
    simp only [List.foldl_cons]
    rcases List.mem_cons.mp hb0 with hb0h | hb0t
    · rw [drawfold_pt_miss rowF colF valF B _ (rowF b0) c ?_]
      · rw [hb0h, hc]
        exact updfold_hit (rowF b) colF (valF b) (List.range 8) g (colF j0) j0 hj0 rfl hcinj
      · intro b2 hb2 j2 _ hcc
        have heq := hrinj b0 hb0 b2 (List.mem_cons_of_mem b hb2) hcc.1
        rw [hb0h] at heq
        rw [← heq] at hb2
        exact hbB hb2
    · exact ih _ c b0 j0 hb0t hndB
        (fun a ha e he => hrinj a (List.mem_cons_of_mem b ha) e (List.mem_cons_of_mem b he))
        hcinj hj0 hc

end Chip8

namespace Chip8

/-- The nested collision OR stays within \{0, 1\}. -/
theorem drawor_le_one (f : Nat → Nat → Nat) (hf : ∀ b j, f b j ≤ 1) :
    ∀ (B : List Nat) (a : Nat), a ≤ 1 →
      B.foldl (fun a2 b => (List.range 8).foldl (fun a3 j => a3 ||| f b j) a2) a ≤ 1 := by
  intro B
  induction B with
  | nil => intro a ha; exact ha
  | cons b B ih =>
    intro a ha
    simp only [List.foldl_cons]
    exact ih _ (lorfold_le_one (f b) (List.range 8) a ha (fun j _ => hf b j))

/-- The nested collision OR is the identity when every contribution is 0. -/
theorem drawor_all_zero (f : Nat → Nat → Nat) :
    ∀ (B : List Nat) (a : Nat), (∀ b ∈ B, ∀ j ∈ List.range 8, f b j = 0) →
      B.foldl (fun a2 b => (List.range 8).foldl (fun a3 j => a3 ||| f b j) a2) a = a := by
  intro B
  induction B with
  | nil => intro a _; rfl
  | cons b B ih =>
    intro a hz
    simp only [List.foldl_cons]
    rw [lorfold_all_zero (f b) (List.range 8) a (hz b (List.mem_cons_self b B))]
    exact ih a (fun b2 hb2 => hz b2 (List.mem_cons_of_mem b hb2))

/-- The nested collision OR keeps an already-set flag. -/
theorem drawor_keep_one (f : Nat → Nat → Nat) (hf : ∀ b j, f b j ≤ 1) :
    ∀ (B : List Nat),
      B.foldl (fun a2 b => (List.range 8).foldl (fun a3 j => a3 ||| f b j) a2) 1 = 1 := by
  intro B
  induction B with
  | nil => rfl
  | cons b B ih =>
    simp only [List.foldl_cons]
    rw [lorfold_keep_one (f b) (List.range 8) (fun j _ => hf b j)]
    exact ih

/-- The nested collision OR produces 1 when some contribution is 1. -/
theorem drawor_hit (f : Nat → Nat → Nat) (hf : ∀ b j, f b j ≤ 1) :
    ∀ (B : List Nat) (a : Nat), a ≤ 1 →
      (∃ b ∈ B, ∃ j ∈ List.range 8, f b j = 1) →
      B.foldl (fun a2 b => (List.range 8).foldl (fun a3 j => a3 ||| f b j) a2) a = 1 := by
  intro B
  induction B with
  | nil =>
    intro a _ hex
    obtain ⟨b, hb, _⟩ := hex
    cases hb
  | cons b B ih =>
    intro a ha hex
    simp only [List.foldl_cons]
    obtain ⟨b0, hb0, j0, hj0, hf0⟩ := hex
    rcases List.mem_cons.mp hb0 with hb0h | hb0t
    · rw [hb0h] at hf0
      rw [lorfold_hit (f b) (List.range 8) a ha (fun j _ => hf b j) ⟨j0, hj0, hf0⟩]
      exact drawor_keep_one f hf B
    · exact ih _ (lorfold_le_one (f b) (List.range 8) a ha (fun j _ => hf b j))
        ⟨b0, hb0t, j0, hj0, hf0⟩

/-- Whether the whole 64 by 32 frame buffer is all-off. -/
def allOffB (g : Nat → Nat → Nat) : Bool :=
  (List.range CHIP8_HEIGHT).all fun r => (List.range CHIP8_WIDTH).all fun c => g r c == 0

/-- Whether the n-row sprite at memory[i] contains at least one set bit. -/
def hasInkB (s : Processor) (n : Nat) : Bool :=
  (List.range n).any fun b => (List.range 8).any fun j => colorOf s b j == 1

end Chip8

namespace Chip8

/-- The all-clear frame buffer, as a named function. -/
def vzero : Nat → Nat → Nat := fun _ _ => 0

/-- C8 (amended): for sprite registers x, y other than VF (and n a nibble,
sprite bytes in bounds), CLS followed by the same Dxyn twice restores the
frame buffer to all-off; the first draw ends with VF = 0, and when the sprite
has at least one set bit the second draw ends with VF = 1 (collision). -/
theorem C8_cls_draw_draw (s : Processor) (x y n : Nat)
    (hx : x < 16) (hy : y < 16) (hx15 : x ≠ 15) (hy15 : y ≠ 15)
    (hn : n < 16) (hmem : s.i + n ≤ MEMORY_SIZE) :
    ((exec_drw x y n (exec_cls s)).map fun t => t.v 15) = some 0 ∧
      (((exec_drw x y n (exec_cls s)).bind (exec_drw x y n)).map fun t => allOffB t.vram) =
        some true ∧
      (hasInkB s n = true →
        (((exec_drw x y n (exec_cls s)).bind (exec_drw x y n)).map fun t => t.v 15) =
          some 1) := by
  have hrinj : ∀ a ∈ List.range n, ∀ c ∈ List.range n,
      rowOf s y a = rowOf s y c → a = c := by
    intro a ha c hc hcc
    have h1 := List.mem_range.mp ha
    have h2 := List.mem_range.mp hc
    have hcc2 : (s.v y + a) % 32 = (s.v y + c) % 32 := hcc
    omega
  have hcinj : ∀ a ∈ List.range 8, ∀ c ∈ List.range 8,
      colOf s x a = colOf s x c → a = c := by
    intro a ha c hc hcc
    have h1 := List.mem_range.mp ha
    have h2 := List.mem_range.mp hc
    have hcc2 : (s.v x + a) % 64 = (s.v x + c) % 64 := hcc
    omega
  have h1 := exec_drw_char x y n (exec_cls s) hx15 hy15
    (rowOf s y) (colOf s x) (colorOf s) vzero
    hrinj hcinj (fun b _ => rfl) (fun j _ => rfl) (fun b _ j _ => rfl) (fun b _ j _ => rfl)
    hmem
  rw [h1]
  simp only [Option.some_bind, Option.map_some']
  rw [exec_drw_char x y n _ hx15 hy15
    (rowOf s y) (colOf s x) (colorOf s) (colorOf s) hrinj hcinj ?hr ?hc ?hco ?hv ?hm]
  case hr =>
    intro b hb
    unfold rowOf
    dsimp only [increment_pc]
    rw [upd_ne _ 15 _ y hy15]
    rfl
  case hc =>
    intro j hj
    unfold colOf
    dsimp only [increment_pc]
    rw [upd_ne _ 15 _ x hx15]
    rfl
  case hco =>
    intro b hb j hj
    rfl
  case hv =>
    intro b hb j hj
    dsimp only [increment_pc]
    refine (drawfold_pt_hit (rowOf s y) (colOf s x)
      (fun b2 j2 => vzero b2 j2 ^^^ colorOf s b2 j2) (List.range n)
      _ (colOf s x j) b j hb (List.nodup_range n) hrinj hcinj hj rfl).trans ?_
    exact Nat.zero_xor (colorOf s b j)
  case hm => exact hmem
  simp only [Option.map_some']
  refine ⟨congrArg some ?_, congrArg some ?_, fun hink => congrArg some ?_⟩
  · -- first draw leaves VF = 0
    dsimp only [increment_pc]
    rw [upd_self]
    exact drawor_all_zero _ (List.range n) 0 (fun b _ j _ => Nat.and_zero _)
  · -- round trip: frame buffer all-off
    unfold allOffB
    simp only [List.all_eq_true, List.mem_range]
    intro r hr c hc
    simp only [beq_iff_eq]
    dsimp only [increment_pc]
    by_cases hhit : ∃ b ∈ List.range n, ∃ j ∈ List.range 8,
        r = rowOf s y b ∧ c = colOf s x j
    · obtain ⟨b, hb, j, hj, hr2, hc2⟩ := hhit
      rw [hr2, hc2]
      refine (drawfold_pt_hit (rowOf s y) (colOf s x)
        (fun b2 j2 => colorOf s b2 j2 ^^^ colorOf s b2 j2) (List.range n)
        _ (colOf s x j) b j hb (List.nodup_range n) hrinj hcinj hj rfl).trans ?_
      exact Nat.xor_self (colorOf s b j)
    · have hmiss : ∀ b ∈ List.range n, ∀ j ∈ List.range 8,
          ¬(r = rowOf s y b ∧ c = colOf s x j) := by
        intro b hb j hj hcc
        exact hhit ⟨b, hb, j, hj, hcc.1, hcc.2⟩
      rw [drawfold_pt_miss _ _ _ (List.range n) _ r c hmiss]
      rw [drawfold_pt_miss _ _ _ (List.range n) _ r c hmiss]
      rfl
  · -- second draw reports the collision when the sprite has ink
    dsimp only [increment_pc]
    rw [upd_self]
    unfold hasInkB at hink
    simp only [List.any_eq_true, List.mem_range, beq_iff_eq] at hink
    obtain ⟨b0, hb0, j0, hj0, hc0⟩ := hink
    refine drawor_hit _ (fun b j => le_trans Nat.and_le_right (colorOf_le_one s b j))
      (List.range n) 0 (by omega)
      ⟨b0, List.mem_range.mpr hb0, j0, List.mem_range.mpr hj0, ?_⟩
    show colorOf s b0 j0 &&& colorOf s b0 j0 = 1
    rw [Nat.and_self, hc0]

end Chip8

namespace Chip8

/-- A machine whose sprite register is VF itself: i = 0x300 points at the
single sprite byte 0xC0 (two set bits). -/
def c8xstate : Processor :=
  { zeroState with i := 0x300, memory := fun a => if a = 0x300 then 0xC0 else 0 }

set_option maxRecDepth 100000 in
/-- C8 counterexample: with x = 0xF (the collision flag register itself used
as the sprite x register), CLS then the same D(F)0n draw twice does NOT
restore the frame buffer: the mid-draw VF write shifts the second draw. -/
theorem C8_counterexample :
    (((exec_drw 15 0 1 (exec_cls c8xstate)).bind (exec_drw 15 0 1)).map
      fun t => allOffB t.vram) ≠ some true := by
  decide

/-- A machine with V0 = 3, V1 = 7 and a two-row sprite 0xC5 0x81 at 0x300. -/
def c8state : Processor :=
  { zeroState with
    i := 0x300
    v := fun j => if j = 0 then 3 else if j = 1 then 7 else 0
    memory := fun a => if a = 0x300 then 0xC5 else if a = 0x301 then 0x81 else 0 }

/-- C8 witness: CLS, draw the 2-row sprite at (V0, V1), draw it again:
VF = 0 after the first draw, the buffer is all-off after the second and
VF = 1 (the sprite has ink). -/
theorem C8_witness :
    ((exec_drw 0 1 2 (exec_cls c8state)).map fun t => t.v 15) = some 0 ∧
      (((exec_drw 0 1 2 (exec_cls c8state)).bind (exec_drw 0 1 2)).map
        fun t => allOffB t.vram) = some true ∧
      (hasInkB c8state 2 = true →
        (((exec_drw 0 1 2 (exec_cls c8state)).bind (exec_drw 0 1 2)).map
          fun t => t.v 15) = some 1) :=
  C8_cls_draw_draw c8state 0 1 2 (by decide) (by decide) (by decide) (by decide)
    (by decide) (by decide)

end Chip8
